import Mathlib

/-!
Verification of the async-redux-react action dispatch engine.

This file is a shallow embedding of the dispatch core found in the
repository sources: the `Store` class (dispatch / dispatchAndWait /
dispatchSync, `_processDispatch`, `_calculateIsWaitingIsFailed`,
`_wraps` / `_wrapsAsync`, `_runFromStart`, `_runAsyncBeforeOnwards`,
`_runAsyncReduceOnwards`, `_retryWrapReduce`, `_processWrapsError`,
`_processWrapsFinally`, `_registerState`, `isWaiting`, `isFailed`,
`exceptionFor`, `clearExceptionFor`) and the `ReduxAction` /
`ActionStatus` / `RetryOptions` classes.

Modelling conventions:
- JavaScript object identity for actions is modelled with a numeric `id`;
  constructor identity (the action's class) with a numeric `typeId`, plus
  the list of superclass type ids so that `instanceof` can be modelled.
- Errors are a three-way inductive: `UserException`s (with their
  `ifOpenDialog` flag), `StoreException`s, and arbitrary other errors.
- JS `Set` and `Map` are association lists with JS insertion semantics.
- User hooks (`before`, `reduce`, `after`, `wrapError`, `abortDispatch`,
  `abortReduce`) are modelled by their outcomes.  `reduce` is a function
  from the invocation index (0-based) to the outcome of that invocation,
  so that the retry wrapper can be modelled faithfully.
- A function returning or throwing inside `wrapError`/`globalWrapError`
  behaves identically in the source (the thrown value replaces the
  error), so both are modelled by an `Option Err` result.
- The single-threaded event-loop means user code can observe the store
  only at hook/observer/predicate call sites.  The engine model logs a
  snapshot of the in-progress set (with the statuses of its members) at
  each such observable point, plus bookkeeping events, so that the
  in-progress-set invariants can be stated over whole dispatches.
- `setTimeout` delays are recorded as data (list of delays in ms).
- The model covers stores built without a persistor and with an empty
  test recorder, which are orthogonal to the dispatch lifecycle.
-/

namespace AsyncRedux

/-- Errors thrown by user code or by the store itself.
`user` models `UserException` (with its `ifOpenDialog` flag),
`storeEx` models `StoreException`, `other` any other thrown value. -/
inductive Err where
  | user (id : Nat) (ifOpenDialog : Bool)
  | storeEx (id : Nat)
  | other (id : Nat)
deriving DecidableEq, Repr

/-- `error instanceof UserException` -/
def Err.isUserException : Err → Bool
  | .user _ _ => true
  | _ => false

/-- the `ifOpenDialog` flag of a `UserException` -/
def Err.openDialog : Err → Bool
  | .user _ b => b
  | _ => false

/-- Ids for the `StoreException`s thrown by the engine itself. -/
def storeExAlreadyDispatched : Err := .storeEx 1

/-- `StoreException` for dispatchSync seeing an async `before`. -/
def storeExSyncBefore : Err := .storeEx 2

/-- `StoreException` for dispatchSync seeing an async `reduce`. -/
def storeExSyncReduce : Err := .storeEx 3

/-- `StoreException` "Since action retries, it should have an ASYNC
reducer, that returns a Promise<(St) => St>". -/
def storeExRetryNeedsAsync : Err := .storeEx 4

/-- A JS `TypeError` raised when the resolved reducer value is called
although it is not a function (only reachable in untyped JS). -/
def jsTypeErrorNotAFunction : Err := .other 999

/-- `error instanceof StoreException` -/
def Err.isStoreException : Err → Bool
  | .storeEx _ => true
  | _ => false

/-- `ActionStatus`: the immutable lifecycle snapshot carried by each
action (class `ActionStatus` in the source). -/
structure ActionStatus where
  isDispatched : Bool := false
  hasFinishedMethodBefore : Bool := false
  hasFinishedMethodReduce : Bool := false
  hasFinishedMethodAfter : Bool := false
  originalError : Option Err := none
  wrappedError : Option Err := none
deriving DecidableEq, Repr

/-- The optional parameters taken by `ActionStatus.copy` and
`ReduxAction._changeStatus` (a `none` field means "keep", matching the
`params.x ?? this.x` fallbacks of the source; note JS `??` lets `null`
and `undefined` fall through, so an error field can never be reset). -/
structure StatusParams where
  isDispatched : Option Bool := none
  hasFinishedMethodBefore : Option Bool := none
  hasFinishedMethodReduce : Option Bool := none
  hasFinishedMethodAfter : Option Bool := none
  originalError : Option Err := none
  wrappedError : Option Err := none

/-- `ActionStatus.copy` -/
def ActionStatus.copy (s : ActionStatus) (p : StatusParams) : ActionStatus :=
  { isDispatched := p.isDispatched.getD s.isDispatched
    hasFinishedMethodBefore := p.hasFinishedMethodBefore.getD s.hasFinishedMethodBefore
    hasFinishedMethodReduce := p.hasFinishedMethodReduce.getD s.hasFinishedMethodReduce
    hasFinishedMethodAfter := p.hasFinishedMethodAfter.getD s.hasFinishedMethodAfter
    originalError := match p.originalError with
      | some e => some e
      | none => s.originalError
    wrappedError := match p.wrappedError with
      | some e => some e
      | none => s.wrappedError }

/-- `isCompleted` getter of `ActionStatus`. -/
def ActionStatus.isCompleted (s : ActionStatus) : Bool :=
  s.hasFinishedMethodAfter

/-- `isCompletedOk` getter of `ActionStatus`. -/
def ActionStatus.isCompletedOk (s : ActionStatus) : Bool :=
  s.isCompleted && s.originalError == none

/-- `isCompletedFailed` getter of `ActionStatus`. -/
def ActionStatus.isCompletedFailed (s : ActionStatus) : Bool :=
  s.isCompleted && s.originalError != none

/-- The full `RetryOptions` record carried by each action as `_retry`.
`currentDelay` is `Option Nat` because the source code compares it with
`null` (`retry.currentDelay == null`); note however that the source
initializes it to the NUMBER `0`, i.e. `some 0` here, not `none`. -/
structure RetryOptions where
  retryOn : Bool  -- field `on` in the source; renamed: `on` is a Lean keyword
  attempts : Nat
  initialDelay : Nat
  multiplier : Nat
  maxRetries : Int
  maxDelay : Nat
  unlimitedRetries : Bool
  currentDelay : Option Nat
deriving DecidableEq, Repr

/-- The default `_retry` field of `ReduxAction` (source construction
site of `_retry`). -/
def defaultRetryOptions : RetryOptions :=
  { retryOn := false
    attempts := 0
    initialDelay := 350
    multiplier := 2
    maxRetries := 3
    maxDelay := 5000
    unlimitedRetries := false
    currentDelay := some 0 }

/-- The user-facing partial `Retry` record (type `Retry` in the source:
every field optional, and no `currentDelay` / `attempts` fields). -/
structure Retry where
  retryOn : Option Bool := none  -- field `on` in the source; renamed: `on` is a Lean keyword
  initialDelay : Option Nat := none
  multiplier : Option Nat := none
  maxRetries : Option Int := none
  maxDelay : Option Nat := none
  unlimitedRetries : Option Bool := none
deriving DecidableEq, Repr

/-- The merge performed by `ReduxAction._injectStore`:
`this._retry = ...spread of this._retry, then this.retry, then on: true`.
User fields overwrite defaults; `on` is forced to `true`; `attempts` and
`currentDelay` are not user-settable so they keep the `_retry` values. -/
def mergeRetry (base : RetryOptions) (u : Retry) : RetryOptions :=
  { retryOn := true
    attempts := base.attempts
    initialDelay := u.initialDelay.getD base.initialDelay
    multiplier := u.multiplier.getD base.multiplier
    maxRetries := u.maxRetries.getD base.maxRetries
    maxDelay := u.maxDelay.getD base.maxDelay
    unlimitedRetries := u.unlimitedRetries.getD base.unlimitedRetries
    currentDelay := base.currentDelay }

/-- `nextDelay` from `Store._retryWrapReduce`: replace a multiplier of
at most 1 by 2; if `currentDelay == null` start from `initialDelay`,
else multiply the previous delay by the multiplier; clamp to `maxDelay`.
Returns the updated options and the delay to await. -/
def nextDelay (r : RetryOptions) : RetryOptions × Nat :=
  let m := if r.multiplier ≤ 1 then 2 else r.multiplier
  let cd := match r.currentDelay with
    | none => r.initialDelay
    | some c => c * m
  let cd := if cd > r.maxDelay then r.maxDelay else cd
  ({ r with currentDelay := some cd }, cd)

/-- The value a reducer promise resolves to.  The declared TypeScript
type is `((state: St) => St | null) | null`, but the retry wrapper can
also make the promise resolve to a plain state (when the wrapped reducer
returned one synchronously), which the engine detects dynamically with
`_isFunction`. -/
inductive AsyncRes (St : Type) where
  | nullRes
  | fnRes (f : St → Option St)
  | stRes (s : St)

/-- Outcome of one invocation of an action's `reduce()` method
(`ReduxReducer<St> = St | null | Promise<((state: St) => St | null) | null>`,
plus the possibility of throwing). A `promise` outcome carries the value
the promise eventually settles with (`Except.error` = rejection). -/
inductive ReduceOutcome (St : Type) where
  | retNull
  | retState (s : St)
  | promise (r : Except Err (AsyncRes St))
  | throws (e : Err)

/-- Outcome of an action's `before()` method: return normally, throw
synchronously, or return a promise that eventually settles. -/
inductive BeforeOutcome where
  | ok
  | throws (e : Err)
  | promise (r : Except Err Unit)

/-- The identity of an action object as seen by the store: its object
identity `id`, its exact constructor `typeId`, and the type ids of its
superclasses (so `instanceof` can be modelled). -/
structure ARef where
  id : Nat
  typeId : Nat
  superTypes : List Nat
deriving DecidableEq, Repr

/-- `action instanceof type` -/
def ARef.instOf (r : ARef) (ty : Nat) : Bool :=
  r.typeId == ty || r.superTypes.contains ty

/-- A `ReduxAction<St>` as the dispatch engine sees it: identity plus
the outcomes of its user-defined hooks.  `reduce` maps the 0-based
invocation index to that invocation's outcome (only index 0 is ever used
unless retry is on).  `wrapError e = none` models returning `null`;
returning and throwing a replacement error behave identically in the
source, so both are `some e'`.  `abortDispatch` may throw (`Except.error`),
which the dispatch entry points catch and treat as an abort. -/
structure ActionM (St : Type) where
  ref : ARef
  before : BeforeOutcome
  reduce : Nat → ReduceOutcome St
  afterThrows : Bool := false
  wrapError : Err → Option Err := fun e => some e
  abortDispatch : Except Err Bool := .ok false
  abortReduce : St → Bool := fun _ => false
  nonReentrant : Bool := false
  retry : Option Retry := none

/-- A wait-entry of `_waitActionConditions`: the `check` predicate over
the in-progress set and the trigger action. -/
structure ActionCond (St : Type) where
  check : List ARef → Option ARef → Bool

/-- Store-level configuration fixed at construction
(`globalWrapError`, `errorObserver`; both receive the action, modelled
by its `ARef`).  `mocks` is the `store.mocks` registry: exact action
type id to substitution function (returning `none` models a mock
function that returns `null`). -/
structure StoreConfig (St : Type) where
  globalWrapError : Option (Err → ARef → Option Err) := none
  errorObserver : Option (Err → ARef → Bool) := none
  mocks : List (Nat × (ActionM St → Option (ActionM St))) := []

/-- The mutable state owned by a `Store<St>` instance, together with the
per-action mutable fields of the actions it has seen (`_status`,
`_retry`, `_initialState`, the `dispatchAndWait` resolver), which the
source mutates through the action object.  `promiseGen i` counts how
many times `_createPromise` ran for action `i` (its current resolver
generation); `resolvedPromises` records each `_resolvePromise` call as
(action id, resolver generation, delivered status).  `updateCount`
counts `_forceUiUpdate` calls; `shownExceptions` records the exceptions
handed to `showUserException`; `resolvedActionConds` / `resolvedConds`
count resolved wait conditions. -/
structure StoreSt (St : Type) where
  state : St
  dispatchCount : Nat := 0
  statuses : Nat → ActionStatus := fun _ => {}
  retryOf : Nat → RetryOptions := fun _ => defaultRetryOptions
  initialStateOf : Nat → Option St := fun _ => none
  actionsInProgress : List ARef := []
  awaitableActions : List Nat := []
  actionsWeCanCheckFailed : List Nat := []
  failedActions : List (Nat × Nat) := []
  userExceptionsQueue : List Err := []
  isUserExceptionUiOpen : Bool := false
  shownExceptions : List Err := []
  waitConditions : List (St → Bool) := []
  waitActionConditions : List (ActionCond St) := []
  resolvedConds : Nat := 0
  resolvedActionConds : Nat := 0
  promiseGen : Nat → Nat := fun _ => 0
  resolvedPromises : List (Nat × Nat × ActionStatus) := []
  updateCount : Nat := 0

/-- JS `Set.add` for the in-progress set (object identity = `id`). -/
def refAdd (l : List ARef) (r : ARef) : List ARef :=
  if l.any (fun x => x.id == r.id) then l else l ++ [r]

/-- JS `Set.delete` for the in-progress set: the remaining set and
whether the element was present. -/
def refDelete (l : List ARef) (aid : Nat) : List ARef × Bool :=
  (l.filter (fun x => x.id ≠ aid), l.any (fun x => x.id == aid))

/-- JS `Set.add` for sets of type ids. -/
def setAdd (l : List Nat) (x : Nat) : List Nat :=
  if x ∈ l then l else l ++ [x]

/-- JS `Map.set` (insert or overwrite) for the failed-actions map. -/
def mapSet (m : List (Nat × Nat)) (k v : Nat) : List (Nat × Nat) :=
  if m.any (fun p => p.1 == k) then
    m.map (fun p => if p.1 == k then (k, v) else p)
  else m ++ [(k, v)]

/-- JS `Map.get` for the failed-actions map. -/
def mapGet (m : List (Nat × Nat)) (k : Nat) : Option Nat :=
  (m.find? (fun p => p.1 == k)).map (·.2)

/-- JS `Map.delete` for the failed-actions map: remaining map and
whether the key was present. -/
def mapDelete (m : List (Nat × Nat)) (k : Nat) : List (Nat × Nat) × Bool :=
  (m.filter (fun p => p.1 ≠ k), m.any (fun p => p.1 == k))

variable {St : Type} [DecidableEq St]

/-- `action._changeStatus(params)` (replaces the action's status with a
copy). -/
def changeStatus (s : StoreSt St) (aid : Nat) (p : StatusParams) : StoreSt St :=
  { s with statuses := fun i => if i = aid then (s.statuses aid).copy p else s.statuses i }

/-- `Store._forceUiUpdate` (the model just counts the UI updates). -/
def forceUiUpdate (s : StoreSt St) : StoreSt St :=
  { s with updateCount := s.updateCount + 1 }

/-- `ReduxAction._injectStore`: capture the `initialState` snapshot and,
if a user `retry` object is present, merge it into `_retry` with
`on: true`. -/
def injectStore (s : StoreSt St) (a : ActionM St) : StoreSt St :=
  let s := { s with initialStateOf := fun i =>
    if i = a.ref.id then some s.state else s.initialStateOf i }
  match a.retry with
  | none => s
  | some u => { s with retryOf := fun i =>
      if i = a.ref.id then mergeRetry (s.retryOf a.ref.id) u else s.retryOf i }

/-- `ReduxAction.ifRetryIsOn` (after injection the action's `retry` and
`_retry` alias the same merged record, so the getter reads `_retry.on`). -/
def ifRetryIsOn (s : StoreSt St) (a : ActionM St) : Bool :=
  (s.retryOf a.ref.id).retryOn

/-- Result of running the retry-wrapped reducer (`_wrapReduce3` and its
recursive re-invocations) to completion: the final mutated retry
options, the list of backoff delays awaited (in order), the number of
times `reduce()` was invoked, and the settled value of the promise
(`Except.error` = the rethrown last error after exhaustion). -/
structure RetryRunResult (St : Type) where
  retryFinal : RetryOptions
  delays : List Nat
  invocations : Nat
  outcome : Except Err (AsyncRes St)

/-- Interprets one `reduce()` invocation inside `_wrapReduce3`:
`newState = reduce(); if (newState instanceof Promise) newState = await
newState; return newState` — a synchronous throw and a rejected promise
both land in the catch block. -/
def interpretAttempt : ReduceOutcome St → Except Err (AsyncRes St)
  | .retNull => .ok .nullRes
  | .retState st => .ok (.stRes st)
  | .promise r => r
  | .throws e => .error e

/-- The retry loop of `_retryWrapReduce`/`_wrapReduce3`: on error,
increment `attempts`; if `maxRetries` is non-negative and
`attempts > maxRetries` rethrow the last error; otherwise compute the
next delay, await it, and re-invoke the wrapped reducer.  `fuel` bounds
the number of re-invocations (with `maxRetries = -1` the source can loop
forever; `none` models a promise that has not settled within `fuel`
retries). -/
def retryLoop (reduce : Nat → ReduceOutcome St) (fuel : Nat)
    (r : RetryOptions) : Option (RetryRunResult St) :=
  match interpretAttempt (reduce r.attempts) with
  | .ok ar => some { retryFinal := r, delays := [], invocations := 1, outcome := .ok ar }
  | .error e =>
    let r1 := { r with attempts := r.attempts + 1 }
    if r1.maxRetries ≥ 0 ∧ (r1.attempts : Int) > r1.maxRetries then
      some { retryFinal := r1, delays := [], invocations := 1, outcome := .error e }
    else
      match fuel with
      | 0 => none
      | fuel' + 1 =>
        let p := nextDelay r1
        match retryLoop reduce fuel' p.1 with
        | none => none
        | some res =>
          some { res with
                 delays := p.2 :: res.delays
                 invocations := res.invocations + 1 }

/-- Observable events of a dispatch.  `snap` records, at a point where
user code runs (a hook, an observer, a wait predicate), the members of
the in-progress set paired with their statuses.  The other constructors
record bookkeeping transitions: addition to / successful removal from
the in-progress set, the start of `before()` / of a `reduce()`
invocation / of `after()`, and the application of a new state. -/
inductive Ev where
  | snap (members : List (Nat × ActionStatus))
  | addInProgress (id : Nat)
  | removeInProgress (id : Nat)
  | beforeRun (id : Nat)
  | reduceRun (id : Nat)
  | afterRun (id : Nat)
  | stateApplied (id : Nat)
deriving DecidableEq, Repr

/-- The in-progress snapshot of a store state. -/
def mkSnap (s : StoreSt St) : Ev :=
  .snap (s.actionsInProgress.map (fun r => (r.id, s.statuses r.id)))

/-- `Store._addUserException` -/
def addUserException (s : StoreSt St) (e : Err) : StoreSt St :=
  { s with userExceptionsQueue := s.userExceptionsQueue ++ [e] }

/-- `Store._openSomeUiToShowUserException`: if no exception UI is open,
pop the first queued exception, mark the UI open and show it.  The
`next` callback handed to the UI is external code and is not modelled
(calling it would clear the flag and re-run this method). -/
def openSomeUiToShowUserException (s : StoreSt St) : StoreSt St :=
  if s.isUserExceptionUiOpen then s
  else
    match s.userExceptionsQueue with
    | [] => s
    | e :: rest =>
      { s with userExceptionsQueue := rest
               isUserExceptionUiOpen := true
               shownExceptions := s.shownExceptions ++ [e] }

/-- `Store._checkAllActionConditions`: resolve and remove every
action-condition whose `check` now passes (given the trigger action). -/
def checkAllActionConditions (s : StoreSt St) (trigger : ARef) : StoreSt St :=
  let fired := s.waitActionConditions.filter
    (fun c => c.check s.actionsInProgress (some trigger))
  { s with
    waitActionConditions := s.waitActionConditions.filter
      (fun c => !(c.check s.actionsInProgress (some trigger)))
    resolvedActionConds := s.resolvedActionConds + fired.length }

/-- `Store._registerState`: if the new state differs from the current
one, apply it, notify the state observer, remove the action from the
in-progress set (early removal, before `after()`), re-check the action
conditions and the state wait-conditions, and update the UI.  The
`newState !== null` guard of the source is vacuous here because `St`
values are never null.  The store is modelled without a persistor, so
the trailing `_processPersistence?.process` call is a no-op. -/
def registerState (s : StoreSt St) (a : ActionM St) (newState : St) :
    StoreSt St × List Ev :=
  if newState ≠ s.state then
    let s := { s with state := newState }
    let ev0 := [Ev.stateApplied a.ref.id, mkSnap s]
    let del := refDelete s.actionsInProgress a.ref.id
    let s := { s with actionsInProgress := del.1 }
    let evRem := if del.2 then [Ev.removeInProgress a.ref.id] else []
    let s := if del.2 then checkAllActionConditions s a.ref else s
    let ev1 := if del.2 then [mkSnap s] else []
    let s := forceUiUpdate s
    let fired := s.waitConditions.filter (fun c => c s.state)
    let s := { s with
      waitConditions := s.waitConditions.filter (fun c => !(c s.state))
      resolvedConds := s.resolvedConds + fired.length }
    let ev2 := [mkSnap s]
    (s, ev0 ++ evRem ++ ev1 ++ ev2)
  else (s, [])

/-- `Store._processWrapsError`: record `originalError`, notify the state
observer, pass the error through the action's `wrapError` and the
store's `globalWrapError`; if still non-null record `wrappedError`,
register the failed action, queue user-facing dialogs, and decide
whether the error is rethrown (the returned `Option Err`). -/
def processWrapsError (cfg : StoreConfig St) (s : StoreSt St) (a : ActionM St)
    (e : Err) : StoreSt St × List Ev × Option Err :=
  let s := changeStatus s a.ref.id { originalError := some e }
  let ev0 := [mkSnap s]
  match a.wrapError e with
  | none => (s, ev0, none)
  | some e1 =>
    let e2 := match cfg.globalWrapError with
      | none => some e1
      | some g => g e1 a.ref
    match e2 with
    | none => (s, ev0, none)
    | some e2 =>
      let s := changeStatus s a.ref.id { wrappedError := some e2 }
      let s := { s with failedActions := mapSet s.failedActions a.ref.typeId a.ref.id }
      let s := if e2.isUserException && e2.openDialog then
          openSomeUiToShowUserException (addUserException s e2)
        else s
      match cfg.errorObserver with
      | none => if e2.isUserException then (s, ev0, none) else (s, ev0, some e2)
      | some obs => if obs e2 a.ref then (s, ev0, some e2) else (s, ev0, none)

/-- `Store._processWrapsFinally`: run `after()` (errors swallowed), set
`hasFinishedMethodAfter`, remove the action from the in-progress set if
it is still there (it may have been removed early by `_registerState`),
re-check action conditions, notify the action observer, and resolve the
`dispatchAndWait` promise. -/
def processWrapsFinally (s : StoreSt St) (a : ActionM St) :
    StoreSt St × List Ev :=
  let ev0 := [mkSnap s, Ev.afterRun a.ref.id]
  let s := changeStatus s a.ref.id { hasFinishedMethodAfter := some true }
  let del := refDelete s.actionsInProgress a.ref.id
  let s := { s with actionsInProgress := del.1 }
  let evRem := if del.2 then [Ev.removeInProgress a.ref.id] else []
  let s := if del.2 then checkAllActionConditions (forceUiUpdate s) a.ref else s
  let ev1 := if del.2 then [mkSnap s] else []
  let ev2 := [mkSnap s]
  let s := if s.promiseGen a.ref.id > 0 then
      { s with resolvedPromises :=
          s.resolvedPromises ++ [(a.ref.id, s.promiseGen a.ref.id, s.statuses a.ref.id)] }
    else s
  (s, ev0 ++ evRem ++ ev1 ++ ev2)

/-- Result of the synchronous part of a dispatch
(`Store._runFromStart`). -/
inductive RunRes (St : Type) where
  | keptSync
  | wentAsyncBefore (r : Except Err Unit)
  | wentAsyncReduce (r : Option (RetryRunResult St))
  | threw (e : Err)

/-- `Store._runFromStart`: run `before()`; when it is synchronous, run
the (possibly retry-wrapped) reducer.  A promise from `before` or
`reduce` either throws a `StoreException` (under `dispatchSync`) or
reports the pending asynchronous work.  With retry on, the wrapped
reducer is an async function, so its first invocation runs now but the
call always yields a promise.  (When `dispatchSync` then throws, the
background retry chain keeps running without any store effect; the model
drops it.) -/
def runFromStart (fuel : Nat) (s : StoreSt St) (a : ActionM St)
    (mustBeSync : Bool) : StoreSt St × List Ev × RunRes St :=
  let ev0 := [mkSnap s, Ev.beforeRun a.ref.id]
  match a.before with
  | .promise r =>
    if mustBeSync then (s, ev0, .threw storeExSyncBefore)
    else (s, ev0, .wentAsyncBefore r)
  | .throws e => (s, ev0, .threw e)
  | .ok =>
    let s := changeStatus s a.ref.id { hasFinishedMethodBefore := some true }
    let ev1 := ev0 ++ [mkSnap s, Ev.reduceRun a.ref.id]
    if ifRetryIsOn s a then
      if mustBeSync then (s, ev1, .threw storeExSyncReduce)
      else (s, ev1, .wentAsyncReduce (retryLoop a.reduce fuel (s.retryOf a.ref.id)))
    else
      match a.reduce 0 with
      | .throws e => (s, ev1, .threw e)
      | .retNull =>
        let s := changeStatus s a.ref.id { hasFinishedMethodReduce := some true }
        (s, ev1, .keptSync)
      | .retState st =>
        if st = s.state then
          let s := changeStatus s a.ref.id { hasFinishedMethodReduce := some true }
          (s, ev1, .keptSync)
        else
          let s := changeStatus s a.ref.id { hasFinishedMethodReduce := some true }
          let ev2 := ev1 ++ [mkSnap s]
          if a.abortReduce st then
            let s := changeStatus s a.ref.id { hasFinishedMethodReduce := some true }
            (s, ev2, .keptSync)
          else
            let r := registerState s a st
            (r.1, ev2 ++ r.2, .keptSync)
      | .promise pr =>
        if mustBeSync then (s, ev1, .threw storeExSyncReduce)
        else (s, ev1, .wentAsyncReduce (some
          { retryFinal := s.retryOf a.ref.id
            delays := []
            invocations := 1
            outcome := pr }))

/-- Result of `Store._wraps` for the caller of `_processDispatch`. -/
inductive WrapsRes (St : Type) where
  | done (thrown : Option Err)
  | pendingBefore (r : Except Err Unit)
  | pendingReduce (r : Option (RetryRunResult St))

/-- `Store._wraps`: run the synchronous part; a thrown error goes
through `_processWrapsError` (whose rethrow propagates out of the
dispatch call); unless the action went async, `_processWrapsFinally`
always runs (JS `finally` runs before the exception propagates). -/
def wraps (cfg : StoreConfig St) (s : StoreSt St) (a : ActionM St)
    (rr : RunRes St) : StoreSt St × List Ev × WrapsRes St :=
  match rr with
  | .keptSync =>
    let r := processWrapsFinally s a
    (r.1, r.2, .done none)
  | .threw e =>
    let pe := processWrapsError cfg s a e
    let r := processWrapsFinally pe.1 a
    (r.1, pe.2.1 ++ r.2, .done pe.2.2)
  | .wentAsyncBefore r => (s, [], .pendingBefore r)
  | .wentAsyncReduce r => (s, [], .pendingReduce r)

/-- Result of an asynchronous continuation (`_wrapsAsync` body):
`completed unhandled` means it ran to the end (with `unhandled` the
rethrown error that becomes an unhandled promise rejection); `stuck`
means the awaited promise never settles, so nothing below the await
point ever runs. -/
inductive ContRes where
  | completed (unhandled : Option Err)
  | stuck
deriving DecidableEq, Repr

/-- Catch-plus-finally of `_wrapsAsync` for an error `e` thrown inside
its `try` block. -/
def errThenFinally (cfg : StoreConfig St) (s : StoreSt St) (a : ActionM St)
    (e : Err) : StoreSt St × List Ev × ContRes :=
  let pe := processWrapsError cfg s a e
  let r := processWrapsFinally pe.1 a
  (r.1, pe.2.1 ++ r.2, .completed pe.2.2)

/-- Write back the retry options mutated while the retry-wrapped reducer
was running. -/
def writeRetry (s : StoreSt St) (a : ActionM St) (r : RetryOptions) : StoreSt St :=
  { s with retryOf := fun i => if i = a.ref.id then r else s.retryOf i }

/-- Shared logic of steps 2.4 (in `_runAsyncBeforeOnwards`) and 5.2/5.3
(in `_runAsyncReduceOnwards`) for a resolved reducer value: a `null`
resolution is a no-op; the before-path (`checkSameState = true`) also
treats a resolution identical to the current state as a no-op; a
non-function resolution throws (a `StoreException` when retry is on,
otherwise the JS `TypeError` from calling a non-function); a function
resolution is applied to the CURRENT state, and its non-null result goes
through `abortReduce` and `_registerState`.  The returned `Option Err`
is the error thrown inside the `try` block, to be fed to the catch. -/
def applyResolvedReduce (s : StoreSt St) (a : ActionM St) (ar : AsyncRes St)
    (checkSameState : Bool) : StoreSt St × List Ev × Option Err :=
  match ar with
  | .nullRes => (s, [], none)
  | .stRes st =>
    if checkSameState ∧ st = s.state then (s, [], none)
    else if ifRetryIsOn s a then (s, [], some storeExRetryNeedsAsync)
    else (s, [], some jsTypeErrorNotAFunction)
  | .fnRes f =>
    let ev0 := [mkSnap s]
    match f s.state with
    | none => (s, ev0, none)
    | some st =>
      let ev1 := ev0 ++ [mkSnap s]
      if a.abortReduce st then (s, ev1, none)
      else
        let r := registerState s a st
        (r.1, ev1 ++ r.2, none)

/-- `Store._runAsyncReduceOnwards` (wrapped in `_wrapsAsync`): await the
reduce promise; on rejection go through catch/finally; on resolution set
`hasFinishedMethodReduce` and process the resolved value (5.2/5.3). -/
def runAsyncReduceOnwards (cfg : StoreConfig St) (s : StoreSt St)
    (a : ActionM St) (pr : Option (RetryRunResult St)) :
    StoreSt St × List Ev × ContRes :=
  match pr with
  | none => (s, [], .stuck)
  | some res =>
    let s := writeRetry s a res.retryFinal
    match res.outcome with
    | .error e => errThenFinally cfg s a e
    | .ok ar =>
      let s := changeStatus s a.ref.id { hasFinishedMethodReduce := some true }
      let ap := applyResolvedReduce s a ar false
      match ap.2.2 with
      | some e =>
        let r := errThenFinally cfg ap.1 a e
        (r.1, ap.2.1 ++ r.2.1, r.2.2)
      | none =>
        let r := processWrapsFinally ap.1 a
        (r.1, ap.2.1 ++ r.2, .completed none)

/-- `Store._runAsyncBeforeOnwards` (wrapped in `_wrapsAsync`): await the
`before` promise (a rejection goes to catch/finally), then run the
(possibly retry-wrapped) reducer and the 2.3/2.4/2.5 cases. -/
def runAsyncBeforeOnwards (cfg : StoreConfig St) (fuel : Nat) (s : StoreSt St)
    (a : ActionM St) (r : Except Err Unit) : StoreSt St × List Ev × ContRes :=
  match r with
  | .error e => errThenFinally cfg s a e
  | .ok _ =>
    let s := changeStatus s a.ref.id { hasFinishedMethodBefore := some true }
    let ev1 := [mkSnap s, Ev.reduceRun a.ref.id]
    if ifRetryIsOn s a then
      match retryLoop a.reduce fuel (s.retryOf a.ref.id) with
      | none => (s, ev1, .stuck)
      | some res =>
        let s := writeRetry s a res.retryFinal
        match res.outcome with
        | .error e =>
          let r := errThenFinally cfg s a e
          (r.1, ev1 ++ r.2.1, r.2.2)
        | .ok ar =>
          let s := changeStatus s a.ref.id { hasFinishedMethodReduce := some true }
          let ap := applyResolvedReduce s a ar true
          match ap.2.2 with
          | some e =>
            let r := errThenFinally cfg ap.1 a e
            (r.1, ev1 ++ ap.2.1 ++ r.2.1, r.2.2)
          | none =>
            let r := processWrapsFinally ap.1 a
            (r.1, ev1 ++ ap.2.1 ++ r.2, .completed none)
    else
      match a.reduce 0 with
      | .throws e =>
        let r := errThenFinally cfg s a e
        (r.1, ev1 ++ r.2.1, r.2.2)
      | .retNull =>
        let s := changeStatus s a.ref.id { hasFinishedMethodReduce := some true }
        let r := processWrapsFinally s a
        (r.1, ev1 ++ r.2, .completed none)
      | .retState st =>
        if st = s.state then
          let s := changeStatus s a.ref.id { hasFinishedMethodReduce := some true }
          let r := processWrapsFinally s a
          (r.1, ev1 ++ r.2, .completed none)
        else
          let s := changeStatus s a.ref.id { hasFinishedMethodReduce := some true }
          let ev2 := ev1 ++ [mkSnap s]
          if a.abortReduce st then
            let s := changeStatus s a.ref.id { hasFinishedMethodReduce := some true }
            let r := processWrapsFinally s a
            (r.1, ev2 ++ r.2, .completed none)
          else
            let r0 := registerState s a st
            let r := processWrapsFinally r0.1 a
            (r.1, ev2 ++ r0.2 ++ r.2, .completed none)
      | .promise pr =>
        match pr with
        | .error e =>
          let r := errThenFinally cfg s a e
          (r.1, ev1 ++ r.2.1, r.2.2)
        | .ok ar =>
          let s := changeStatus s a.ref.id { hasFinishedMethodReduce := some true }
          let ap := applyResolvedReduce s a ar true
          match ap.2.2 with
          | some e =>
            let r := errThenFinally cfg ap.1 a e
            (r.1, ev1 ++ ap.2.1 ++ r.2.1, r.2.2)
          | none =>
            let r := processWrapsFinally ap.1 a
            (r.1, ev1 ++ ap.2.1 ++ r.2, .completed none)

/-- `Store.isWaiting(type)`: marks the type as awaitable (side effect)
and reports whether some in-progress action is an `instanceof` the
type. -/
def isWaiting (s : StoreSt St) (ty : Nat) : StoreSt St × Bool :=
  let s := { s with awaitableActions := setAdd s.awaitableActions ty }
  (s, s.actionsInProgress.any (fun r => r.instOf ty))

/-- `Store.exceptionFor(type)`: marks the type as checkable (side
effect) and returns the registered failed action's `wrappedError` if it
is a `UserException`, else `null`.  Lookup is by exact type id. -/
def exceptionFor (s : StoreSt St) (ty : Nat) : StoreSt St × Option Err :=
  let s := { s with actionsWeCanCheckFailed := setAdd s.actionsWeCanCheckFailed ty }
  let err := match mapGet s.failedActions ty with
    | none => none
    | some aid => (s.statuses aid).wrappedError
  (s, match err with
      | some e => if e.isUserException then some e else none
      | none => none)

/-- `Store.isFailed(type)`: `exceptionFor(type) !== null`. -/
def isFailed (s : StoreSt St) (ty : Nat) : StoreSt St × Bool :=
  let r := exceptionFor s ty
  (r.1, r.2.isSome)

/-- `Store.clearExceptionFor(type)`: remove the exact type's entry from
the failed-actions map (updating the UI if something was removed). -/
def clearExceptionFor (s : StoreSt St) (ty : Nat) : StoreSt St :=
  let del := mapDelete s.failedActions ty
  let s := { s with failedActions := del.1 }
  if del.2 then forceUiUpdate s else s

/-- `Store._calculateIsWaitingIsFailed`: if the action's exact type was
ever queried with `isFailed`/`exceptionFor` ("failable"), drop it from
the failed-actions map (updating the UI if it was there); then add the
action to the in-progress set; then, if the type was ever queried with
`isWaiting` ("awaitable") and the UI was not already updated, update the
UI. -/
def calculateIsWaitingIsFailed (s : StoreSt St) (a : ActionM St) :
    StoreSt St × List Ev :=
  let failable := a.ref.typeId ∈ s.actionsWeCanCheckFailed
  let step1 :=
    if failable then
      let del := mapDelete s.failedActions a.ref.typeId
      let s := { s with failedActions := del.1 }
      if del.2 then (forceUiUpdate s, true) else (s, false)
    else (s, false)
  let s := step1.1
  let theUIHasAlreadyUpdated := step1.2
  let s := { s with actionsInProgress := refAdd s.actionsInProgress a.ref }
  let ev := [Ev.addInProgress a.ref.id]
  let s := if !theUIHasAlreadyUpdated && a.ref.typeId ∈ s.awaitableActions then
      forceUiUpdate s
    else s
  (s, ev)

/-- `Store._mockActionOrNot`: no registered mock returns the action
unchanged; a registered mock's result replaces it (`none` = ignore). -/
def mockActionOrNot (cfg : StoreConfig St) (a : ActionM St) : Option (ActionM St) :=
  match cfg.mocks.find? (fun p => p.1 == a.ref.typeId) with
  | none => some a
  | some p => p.2 a

/-- Pending asynchronous work left behind when a dispatch call returned
before its lifecycle finished. -/
inductive Pending (St : Type) where
  | pendBefore (r : Except Err Unit)
  | pendReduce (r : Option (RetryRunResult St))

/-- How a dispatch entry-point call came back to its caller.
`ignored` covers the silent drops (mocked to null, `abortDispatch`,
non-reentrancy); `threwSync` is a synchronous throw out of the call;
`returnedOk` is a normal return, possibly leaving pending async work. -/
inductive DispatchCallRes (St : Type) where
  | ignored
  | threwSync (e : Err)
  | returnedOk (pending : Option (Pending St))

/-- `Store._processDispatch`: bump the dispatch count, reject
double-dispatch with a `StoreException`, set `isDispatched`, inject the
store, notify the action observer, update the waiting/failed
bookkeeping, and run `_wraps(_runFromStart)`. -/
def processDispatch (cfg : StoreConfig St) (fuel : Nat) (s : StoreSt St)
    (a : ActionM St) (mustBeSync : Bool) :
    StoreSt St × List Ev × DispatchCallRes St :=
  let s := { s with dispatchCount := s.dispatchCount + 1 }
  if (s.statuses a.ref.id).isDispatched then
    (s, [], .threwSync storeExAlreadyDispatched)
  else
    let s := changeStatus s a.ref.id { isDispatched := some true }
    let s := injectStore s a
    let ev0 := [mkSnap s]
    let c := calculateIsWaitingIsFailed s a
    let rf := runFromStart fuel c.1 a mustBeSync
    let w := wraps cfg rf.1 a rf.2.2
    let tr := ev0 ++ c.2 ++ rf.2.1 ++ w.2.1
    let res := match w.2.2 with
      | .done none => DispatchCallRes.returnedOk none
      | .done (some e) => .threwSync e
      | .pendingBefore r => .returnedOk (some (.pendBefore r))
      | .pendingReduce r => .returnedOk (some (.pendReduce r))
    (w.1, tr, res)

/-- `Store.dispatch`: mock substitution, the `abortDispatch` guard (its
errors are logged and swallowed, aborting), the non-reentrancy guard
(only this entry point has it), then `_processDispatch`. -/
def dispatch (cfg : StoreConfig St) (fuel : Nat) (s : StoreSt St)
    (a : ActionM St) : StoreSt St × List Ev × DispatchCallRes St :=
  match mockActionOrNot cfg a with
  | none => (s, [], .ignored)
  | some act =>
    match act.abortDispatch with
    | .error _ => (s, [], .ignored)
    | .ok true => (s, [], .ignored)
    | .ok false =>
      if act.nonReentrant then
        let r := isWaiting s act.ref.typeId
        if r.2 then (r.1, [], .ignored)
        else processDispatch cfg fuel r.1 act false
      else processDispatch cfg fuel s act false

/-- `Store.dispatchAndWait`: mock substitution and the `abortDispatch`
guard (no non-reentrancy guard in the source), then `_createPromise`
(bumping the action's resolver generation) and `_processDispatch`. -/
def dispatchAndWait (cfg : StoreConfig St) (fuel : Nat) (s : StoreSt St)
    (a : ActionM St) : StoreSt St × List Ev × DispatchCallRes St :=
  match mockActionOrNot cfg a with
  | none => (s, [], .ignored)
  | some act =>
    match act.abortDispatch with
    | .error _ => (s, [], .ignored)
    | .ok true => (s, [], .ignored)
    | .ok false =>
      let s := { s with promiseGen := fun i =>
        if i = act.ref.id then s.promiseGen act.ref.id + 1 else s.promiseGen i }
      processDispatch cfg fuel s act false

/-- `Store.dispatchSync`: mock substitution and the `abortDispatch`
guard (no non-reentrancy guard in the source), then `_processDispatch`
with `mustBeSync = true`. -/
def dispatchSync (cfg : StoreConfig St) (fuel : Nat) (s : StoreSt St)
    (a : ActionM St) : StoreSt St × List Ev × DispatchCallRes St :=
  match mockActionOrNot cfg a with
  | none => (s, [], .ignored)
  | some act =>
    match act.abortDispatch with
    | .error _ => (s, [], .ignored)
    | .ok true => (s, [], .ignored)
    | .ok false => processDispatch cfg fuel s act true

/-- Run the pending asynchronous continuation of a dispatched action. -/
def completePending (cfg : StoreConfig St) (fuel : Nat) (s : StoreSt St)
    (a : ActionM St) : Pending St → StoreSt St × List Ev × ContRes
  | .pendBefore r => runAsyncBeforeOnwards cfg fuel s a r
  | .pendReduce r => runAsyncReduceOnwards cfg s a r

/-- An entire dispatch observed to quiescence: the final store, the full
event trace, how the dispatch call returned, and (when async work was
pending) how the continuation ended. -/
structure FullRes (St : Type) where
  store : StoreSt St
  trace : List Ev
  call : DispatchCallRes St
  cont : Option ContRes

/-- `dispatch` followed by its pending continuation (if any). -/
def dispatchAndComplete (cfg : StoreConfig St) (fuel : Nat) (s : StoreSt St)
    (a : ActionM St) : FullRes St :=
  let d := dispatch cfg fuel s a
  match d.2.2 with
  | .returnedOk (some p) =>
    let k := completePending cfg fuel d.1 a p
    { store := k.1, trace := d.2.1 ++ k.2.1, call := d.2.2, cont := some k.2.2 }
  | _ => { store := d.1, trace := d.2.1, call := d.2.2, cont := none }

/-- `dispatchAndWait` followed by its pending continuation (if any). -/
def dispatchAndWaitAndComplete (cfg : StoreConfig St) (fuel : Nat)
    (s : StoreSt St) (a : ActionM St) : FullRes St :=
  let d := dispatchAndWait cfg fuel s a
  match d.2.2 with
  | .returnedOk (some p) =>
    let k := completePending cfg fuel d.1 a p
    { store := k.1, trace := d.2.1 ++ k.2.1, call := d.2.2, cont := some k.2.2 }
  | _ => { store := d.1, trace := d.2.1, call := d.2.2, cont := none }

/-! ### Derived definitions used by the theorems -/

/-- The error that survives both wrapping stages of
`_processWrapsError`: the action's own `wrapError`, then (if configured,
and only if the first stage did not return null) the store's
`globalWrapError`. -/
def finalWrappedError (cfg : StoreConfig St) (a : ActionM St) (e : Err) :
    Option Err :=
  match a.wrapError e with
  | none => none
  | some e1 =>
    match cfg.globalWrapError with
    | none => some e1
    | some g => g e1 a.ref

/-- The in-progress-set state invariant: every member's status has
`isDispatched = true` and `hasFinishedMethodAfter = false`. -/
def InvS (s : StoreSt St) : Prop :=
  ∀ r ∈ s.actionsInProgress,
    (s.statuses r.id).isDispatched = true ∧
    (s.statuses r.id).hasFinishedMethodAfter = false

/-- The in-progress-set invariant reading of one observable event: a
snapshot is fine when every member satisfies the invariant; all other
events are fine. -/
def SnapOk : Ev → Prop
  | .snap mem => ∀ p ∈ mem, p.2.isDispatched = true ∧ p.2.hasFinishedMethodAfter = false
  | _ => True

/-! ### Concrete fixtures (used by counterexamples and witnesses) -/

/-- A store over `Nat` states with default configuration. -/
def cfg0 : StoreConfig Nat := {}

/-- A freshly constructed store holding state `0`. -/
def store0 : StoreSt Nat := { state := 0 }

/-- A sample action object: id 1, exact type 10, no superclasses. -/
def ref1 : ARef := { id := 1, typeId := 10, superTypes := [] }

/-- A second action object of the same exact type 10. -/
def ref2 : ARef := { id := 2, typeId := 10, superTypes := [] }

/-! ### Claim C10 -/

/-- Claim C10: `isFailed(T)` / `exceptionFor(T)` report a failure only
when the registered failed action's final wrapped error is a
`UserException`; with any other non-null wrapped error the action stays
stored in the failed-actions map but `exceptionFor` returns null and
`isFailed` returns false. -/
theorem exceptionFor_reports_only_userExceptions (s : StoreSt St)
    (ty aid : Nat) (e : Err)
    (hmap : mapGet s.failedActions ty = some aid)
    (herr : (s.statuses aid).wrappedError = some e) :
    (e.isUserException = false →
      (exceptionFor s ty).2 = none ∧ (isFailed s ty).2 = false) ∧
    (e.isUserException = true →
      (exceptionFor s ty).2 = some e ∧ (isFailed s ty).2 = true) ∧
    mapGet (exceptionFor s ty).1.failedActions ty = some aid := by
  unfold isFailed exceptionFor
  simp only [hmap, herr]
  cases h : e.isUserException <;> simp [h]

/-- Witness for C10: a store whose type-10 entry carries a non-user
wrapped error is stored but not reported. -/
theorem exceptionFor_reports_only_userExceptions_witness :
    (exceptionFor
      { state := 0, failedActions := [(10, 1)]
        statuses := fun _ => { wrappedError := some (.other 3) } } 10).2
      = (none : Option Err) := by
  have h := exceptionFor_reports_only_userExceptions
    ({ state := 0, failedActions := [(10, 1)]
       statuses := fun _ => { wrappedError := some (.other 3) } } : StoreSt Nat)
    10 1 (.other 3) (by decide) (by decide)
  exact (h.1 (by decide)).1

/-! ### Claim C9 -/

/-- Claim C9 (code bug): the spec and the source's own doc comment say
the delay before the first retry is `initialDelay` and later delays
multiply by `multiplier` clamped to `maxDelay`; but `_retry` initializes
`currentDelay` to the number 0 (not null), `0 == null` is false in JS,
and the user-facing `Retry` type cannot override `currentDelay`, so
`nextDelay` computes `0 × multiplier = 0` for the first and every
subsequent retry of every retry-enabled action.  This theorem evaluates
the code at the failing input: default options `retry = (on: true)`
merged at injection give `initialDelay = 350` yet a first backoff delay
of `0`, and a reducer failing on all of the default 4 attempts awaits
delays `[0, 0, 0]`; the first conjunct shows no user configuration
avoids this. -/
theorem retryBackoff_delays_are_zero :
    (∀ u : Retry, (nextDelay (mergeRetry defaultRetryOptions u)).2 = 0) ∧
    (mergeRetry defaultRetryOptions { retryOn := some true }).initialDelay = 350 ∧
    (nextDelay (mergeRetry defaultRetryOptions { retryOn := some true })).2 = 0 ∧
    (retryLoop (fun _ => (ReduceOutcome.throws (.other 5) : ReduceOutcome Nat)) 10
      (mergeRetry defaultRetryOptions { retryOn := some true })).map
      (fun r => r.delays) = some [0, 0, 0] := by
  refine ⟨fun u => ?_, by decide, by decide, by decide⟩
  simp [nextDelay, mergeRetry, defaultRetryOptions]

/-! ### Claim C7 -/

/-- Claim C7: error propagation policy of `_processWrapsError`.  With no
error observer, the dispatch rethrows the final wrapped error unless it
is a `UserException` (always swallowed); with an error observer, it
rethrows exactly when the observer returns true; and when `wrapError` or
`globalWrapError` returns null, the error is fully suppressed: no
throw, no failed-action registration, no presentation (queue, shown
list and dialog flag untouched). -/
theorem processWrapsError_policy (cfg : StoreConfig St) (s : StoreSt St)
    (a : ActionM St) (e : Err) :
    ((processWrapsError cfg s a e).2.2 =
      match finalWrappedError cfg a e, cfg.errorObserver with
      | none, _ => none
      | some e', none => if e'.isUserException then none else some e'
      | some e', some f => if f e' a.ref then some e' else none) ∧
    (finalWrappedError cfg a e = none →
      (processWrapsError cfg s a e).2.2 = none ∧
      (processWrapsError cfg s a e).1.failedActions = s.failedActions ∧
      (processWrapsError cfg s a e).1.userExceptionsQueue = s.userExceptionsQueue ∧
      (processWrapsError cfg s a e).1.shownExceptions = s.shownExceptions ∧
      (processWrapsError cfg s a e).1.isUserExceptionUiOpen = s.isUserExceptionUiOpen) := by
  unfold processWrapsError finalWrappedError
  cases hw : a.wrapError e with
  | none =>
    cases ho : cfg.errorObserver <;> simp [changeStatus, hw, ho]
  | some e1 =>
    cases hg : cfg.globalWrapError with
    | none =>
      cases ho : cfg.errorObserver with
      | none =>
        constructor <;> simp [changeStatus, hw, hg, ho]
        split <;> simp
      | some f =>
        constructor <;> simp [changeStatus, hw, hg, ho]
        split <;> simp
    | some g =>
      cases hge : g e1 a.ref with
      | none =>
        cases ho : cfg.errorObserver <;> simp [changeStatus, hw, hg, hge, ho]
      | some e2 =>
        cases ho : cfg.errorObserver with
        | none =>
          constructor <;> simp [changeStatus, hw, hg, hge, ho]
          split <;> simp
        | some f =>
          constructor <;> simp [changeStatus, hw, hg, hge, ho]
          split <;> simp

/-- Witness for C7: with no error observer and identity wrapping, a
non-user error is rethrown by the dispatch. -/
theorem processWrapsError_policy_witness :
    (processWrapsError cfg0 store0
      { ref := ref1, before := .ok, reduce := fun _ => .retNull }
      (.other 7)).2.2 = some (.other 7) := by
  have h := (processWrapsError_policy cfg0 store0
    { ref := ref1, before := .ok, reduce := fun _ => .retNull }
    (.other 7)).1
  rw [h]
  decide

/-! ### Helper lemmas about the JS map model and the entry points -/

theorem find?_filter_none {α : Type} (t : List α) (f g : α → Bool)
    (h : ∀ x, g x = true → f x = false) :
    List.find? g (t.filter f) = none := by
  induction t with
  | nil => rfl
  | cons p t ih =>
    cases hf : f p with
    | false => simpa [List.filter_cons, hf] using ih
    | true =>
      have hg : g p = false := by
        cases hgp : g p
        · rfl
        · rw [h p hgp] at hf
          cases hf
      simpa [List.filter_cons, hf, List.find?_cons, hg] using ih

theorem find?_filter_of_imp {α : Type} (t : List α) (f g : α → Bool)
    (h : ∀ x, g x = true → f x = true) :
    List.find? g (t.filter f) = List.find? g t := by
  induction t with
  | nil => rfl
  | cons p t ih =>
    cases hf : f p with
    | false =>
      have hg : g p = false := by
        cases hgp : g p
        · rfl
        · rw [h p hgp] at hf
          cases hf
      simpa [List.filter_cons, hf, List.find?_cons, hg] using ih
    | true =>
      cases hg : g p with
      | false => simpa [List.filter_cons, hf, List.find?_cons, hg] using ih
      | true => simp [List.filter_cons, hf, List.find?_cons, hg]

theorem mapGet_mapDelete_self (m : List (Nat × Nat)) (k : Nat) :
    mapGet (mapDelete m k).1 k = none := by
  unfold mapGet mapDelete
  rw [find?_filter_none]
  · rfl
  · intro x hx
    simp at hx ⊢
    exact hx

theorem mapGet_mapDelete_other (m : List (Nat × Nat)) (k k' : Nat)
    (h : k' ≠ k) : mapGet (mapDelete m k).1 k' = mapGet m k' := by
  unfold mapGet mapDelete
  rw [find?_filter_of_imp]
  intro x hx
  simp at hx ⊢
  rw [hx]
  exact h

/-- `dispatch` reduces to `_processDispatch` when no mock intervenes,
`abortDispatch` returns false, and the action is not non-reentrant. -/
theorem dispatch_eq_processDispatch (cfg : StoreConfig St) (fuel : Nat)
    (s : StoreSt St) (a : ActionM St)
    (hmock : mockActionOrNot cfg a = some a)
    (habort : a.abortDispatch = .ok false)
    (hnr : a.nonReentrant = false) :
    dispatch cfg fuel s a = processDispatch cfg fuel s a false := by
  unfold dispatch
  simp [hmock, habort, hnr]

/-- `dispatchSync` reduces to `_processDispatch` with `mustBeSync` when
no mock intervenes and `abortDispatch` returns false (it never checks
`nonReentrant`). -/
theorem dispatchSync_eq_processDispatch (cfg : StoreConfig St) (fuel : Nat)
    (s : StoreSt St) (a : ActionM St)
    (hmock : mockActionOrNot cfg a = some a)
    (habort : a.abortDispatch = .ok false) :
    dispatchSync cfg fuel s a = processDispatch cfg fuel s a true := by
  unfold dispatchSync
  simp [hmock, habort]

/-- `dispatchAndWait` reduces to `_createPromise` plus
`_processDispatch` when no mock intervenes and `abortDispatch` returns
false (it never checks `nonReentrant`). -/
theorem dispatchAndWait_eq_processDispatch (cfg : StoreConfig St) (fuel : Nat)
    (s : StoreSt St) (a : ActionM St)
    (hmock : mockActionOrNot cfg a = some a)
    (habort : a.abortDispatch = .ok false) :
    dispatchAndWait cfg fuel s a = processDispatch cfg fuel
      { s with promiseGen := fun i =>
          if i = a.ref.id then s.promiseGen a.ref.id + 1 else s.promiseGen i }
      a false := by
  unfold dispatchAndWait
  simp [hmock, habort]

theorem injectStore_failedActions (s : StoreSt St) (a : ActionM St) :
    (injectStore s a).failedActions = s.failedActions := by
  unfold injectStore
  cases a.retry <;> simp

theorem injectStore_statuses (s : StoreSt St) (a : ActionM St) :
    (injectStore s a).statuses = s.statuses := by
  unfold injectStore
  cases a.retry <;> simp

theorem injectStore_actionsWeCanCheckFailed (s : StoreSt St) (a : ActionM St) :
    (injectStore s a).actionsWeCanCheckFailed = s.actionsWeCanCheckFailed := by
  unfold injectStore
  cases a.retry <;> simp

theorem injectStore_state (s : StoreSt St) (a : ActionM St) :
    (injectStore s a).state = s.state := by
  unfold injectStore
  cases a.retry <;> simp

/-- `_calculateIsWaitingIsFailed` deletes the action's exact type from
the failed-actions map when the type is "failable" (previously queried
with `isFailed`/`exceptionFor`), and otherwise leaves the map alone. -/
theorem calculateIsWaitingIsFailed_failedActions (s : StoreSt St)
    (a : ActionM St) :
    (calculateIsWaitingIsFailed s a).1.failedActions =
      if a.ref.typeId ∈ s.actionsWeCanCheckFailed then
        (mapDelete s.failedActions a.ref.typeId).1
      else s.failedActions := by
  unfold calculateIsWaitingIsFailed
  by_cases h : a.ref.typeId ∈ s.actionsWeCanCheckFailed <;>
    simp [h, forceUiUpdate] <;> (repeat' split) <;> simp [forceUiUpdate]

/-! ### Claim C6 -/

/-- The failing action used for the C6 counterexample: exact type 10,
fails with a user exception (dialog flag off). -/
def actC6fail : ActionM Nat :=
  { ref := ref2, before := .ok, reduce := fun _ => .throws (.user 1 false) }

/-- The store after `actC6fail` failed; its type-10 entry is in the
failed-actions map and type 10 was never queried with
`isFailed`/`exceptionFor`. -/
def storeC6 : StoreSt Nat := (dispatchAndComplete cfg0 10 store0 actC6fail).store

/-- A plain successful action of the same exact type 10. -/
def actC6next : ActionM Nat :=
  { ref := ref1, before := .ok, reduce := fun _ => .retState 5 }

/-- Claim C6 counterexample: type 10 has an entry in the failed-actions
registry, yet dispatching (and fully completing) the next action of
exactly type 10 does NOT remove the entry, because type 10 was never
queried with `isFailed`/`exceptionFor` — refuting "the entry is removed
automatically as soon as the next action of exactly type T starts
dispatching". -/
theorem failedActions_survive_redispatch :
    mapGet storeC6.failedActions 10 = some 2 ∧
    storeC6.actionsWeCanCheckFailed = [] ∧
    (dispatchAndComplete cfg0 10 storeC6 actC6next).cont = none ∧
    mapGet (dispatchAndComplete cfg0 10 storeC6 actC6next).store.failedActions 10
      = some 2 := by
  refine ⟨by decide, by decide, by decide, by decide⟩

/-- Claim C6 as amended: an entry of the failed-actions registry for
type T is removed at the start of the next dispatch of exactly type T
(before its `before` even settles) PROVIDED T was previously marked
checkable by an `isFailed`/`exceptionFor` call; if T was never checked
the dispatch leaves the registry unchanged; entries of other types are
never touched by T's dispatch; and `clearExceptionFor` always removes
exactly T's entry. -/
theorem failedActions_clearing_policy (cfg : StoreConfig St) (fuel : Nat)
    (s : StoreSt St) (a : ActionM St) (rb : Except Err Unit)
    (hmock : mockActionOrNot cfg a = some a)
    (habort : a.abortDispatch = .ok false)
    (hnr : a.nonReentrant = false)
    (hfresh : s.statuses a.ref.id = {})
    (hbefore : a.before = .promise rb) :
    ((dispatch cfg fuel s a).2.2 = .returnedOk (some (.pendBefore rb))) ∧
    (a.ref.typeId ∈ s.actionsWeCanCheckFailed →
      mapGet (dispatch cfg fuel s a).1.failedActions a.ref.typeId = none) ∧
    (a.ref.typeId ∉ s.actionsWeCanCheckFailed →
      (dispatch cfg fuel s a).1.failedActions = s.failedActions) ∧
    (∀ ty, ty ≠ a.ref.typeId →
      mapGet (dispatch cfg fuel s a).1.failedActions ty = mapGet s.failedActions ty) ∧
    (∀ ty, mapGet (clearExceptionFor s ty).failedActions ty = none) ∧
    (∀ ty ty', ty' ≠ ty →
      mapGet (clearExceptionFor s ty).failedActions ty' = mapGet s.failedActions ty') := by
  have hd := dispatch_eq_processDispatch cfg fuel s a hmock habort hnr
  have hfa := calculateIsWaitingIsFailed_failedActions
    (injectStore (changeStatus { s with dispatchCount := s.dispatchCount + 1 }
      a.ref.id { isDispatched := some true }) a) a
  have hcs : (changeStatus { s with dispatchCount := s.dispatchCount + 1 }
      a.ref.id { isDispatched := some true }).failedActions = s.failedActions := by
    simp [changeStatus]
  have hcs2 : (changeStatus { s with dispatchCount := s.dispatchCount + 1 }
      a.ref.id { isDispatched := some true }).actionsWeCanCheckFailed
      = s.actionsWeCanCheckFailed := by
    simp [changeStatus]
  rw [injectStore_failedActions, injectStore_actionsWeCanCheckFailed, hcs, hcs2] at hfa
  refine ⟨?_, ?_, ?_, ?_, ?_, ?_⟩
  · rw [hd]
    unfold processDispatch runFromStart wraps
    simp [hbefore, hfresh]
  · intro hchk
    rw [hd]
    unfold processDispatch runFromStart wraps
    simp [hbefore, hfresh, hfa, hchk, mapGet_mapDelete_self]
  · intro hchk
    rw [hd]
    unfold processDispatch runFromStart wraps
    simp [hbefore, hfresh, hfa, hchk]
  · intro ty hty
    rw [hd]
    unfold processDispatch runFromStart wraps
    by_cases hchk : a.ref.typeId ∈ s.actionsWeCanCheckFailed <;>
      simp [hbefore, hfresh, hfa, hchk, mapGet_mapDelete_other _ _ _ hty]
  · intro ty
    unfold clearExceptionFor
    by_cases h2 : (mapDelete s.failedActions ty).2 = true <;>
      simp [h2, forceUiUpdate, mapGet_mapDelete_self]
  · intro ty ty' hty
    unfold clearExceptionFor
    by_cases h2 : (mapDelete s.failedActions ty).2 = true <;>
      simp [h2, forceUiUpdate, mapGet_mapDelete_other _ _ _ hty]

/-- A store with a type-10 failed entry whose type has been marked
checkable. -/
def storeC6b : StoreSt Nat :=
  { state := 0, actionsWeCanCheckFailed := [10], failedActions := [(10, 2)] }

/-- An async-before action of type 10 used to observe the store between
dispatch start and completion. -/
def actC6async : ActionM Nat :=
  { ref := ref1, before := .promise (.ok ()), reduce := fun _ => .retNull }

/-- Witness for the amended C6: with type 10 checkable, the entry is
gone already when `dispatch` returns with `before()` still pending, and
`clearExceptionFor` removes it explicitly as well. -/
theorem failedActions_clearing_policy_witness :
    mapGet (dispatch cfg0 10 storeC6b actC6async).1.failedActions 10 = none ∧
    mapGet (clearExceptionFor storeC6b 10).failedActions 10 = none := by
  have h := failedActions_clearing_policy cfg0 10 storeC6b actC6async (.ok ())
    (by rfl) (by rfl) (by rfl) (by rfl) (by rfl)
  exact ⟨h.2.1 (by decide), h.2.2.2.2.1 10⟩

/-! ### Frame lemmas: which store fields each pipeline stage leaves
alone -/

theorem checkAllActionConditions_state (s : StoreSt St) (t : ARef) :
    (checkAllActionConditions s t).state = s.state := by
  unfold checkAllActionConditions
  simp

theorem checkAllActionConditions_statuses (s : StoreSt St) (t : ARef) :
    (checkAllActionConditions s t).statuses = s.statuses := by
  unfold checkAllActionConditions
  simp

theorem checkAllActionConditions_actionsInProgress (s : StoreSt St) (t : ARef) :
    (checkAllActionConditions s t).actionsInProgress = s.actionsInProgress := by
  unfold checkAllActionConditions
  simp

theorem checkAllActionConditions_dispatchCount (s : StoreSt St) (t : ARef) :
    (checkAllActionConditions s t).dispatchCount = s.dispatchCount := by
  unfold checkAllActionConditions
  simp

theorem openSomeUi_state (s : StoreSt St) :
    (openSomeUiToShowUserException s).state = s.state := by
  unfold openSomeUiToShowUserException
  (repeat' split) <;> simp

theorem openSomeUi_statuses (s : StoreSt St) :
    (openSomeUiToShowUserException s).statuses = s.statuses := by
  unfold openSomeUiToShowUserException
  (repeat' split) <;> simp

theorem openSomeUi_dispatchCount (s : StoreSt St) :
    (openSomeUiToShowUserException s).dispatchCount = s.dispatchCount := by
  unfold openSomeUiToShowUserException
  (repeat' split) <;> simp

theorem openSomeUi_actionsInProgress (s : StoreSt St) :
    (openSomeUiToShowUserException s).actionsInProgress = s.actionsInProgress := by
  unfold openSomeUiToShowUserException
  (repeat' split) <;> simp

/-- `_processWrapsError` never changes the store state value (the error
path applies no new state). -/
theorem processWrapsError_state (cfg : StoreConfig St) (s : StoreSt St)
    (a : ActionM St) (e : Err) :
    (processWrapsError cfg s a e).1.state = s.state := by
  unfold processWrapsError
  (repeat' split) <;>
    simp [changeStatus, addUserException, openSomeUi_state] <;>
    (repeat' split) <;>
    simp [changeStatus, addUserException, openSomeUi_state]

theorem processWrapsError_dispatchCount (cfg : StoreConfig St) (s : StoreSt St)
    (a : ActionM St) (e : Err) :
    (processWrapsError cfg s a e).1.dispatchCount = s.dispatchCount := by
  unfold processWrapsError
  (repeat' split) <;>
    simp [changeStatus, addUserException, openSomeUi_dispatchCount] <;>
    (repeat' split) <;>
    simp [changeStatus, addUserException, openSomeUi_dispatchCount]

theorem processWrapsError_actionsInProgress (cfg : StoreConfig St)
    (s : StoreSt St) (a : ActionM St) (e : Err) :
    (processWrapsError cfg s a e).1.actionsInProgress = s.actionsInProgress := by
  unfold processWrapsError
  (repeat' split) <;>
    simp [changeStatus, addUserException, openSomeUi_actionsInProgress] <;>
    (repeat' split) <;>
    simp [changeStatus, addUserException, openSomeUi_actionsInProgress]

/-- `_processWrapsError` only touches the dispatched action's own
status. -/
theorem processWrapsError_statuses_other (cfg : StoreConfig St)
    (s : StoreSt St) (a : ActionM St) (e : Err) (j : Nat)
    (hj : j ≠ a.ref.id) :
    (processWrapsError cfg s a e).1.statuses j = s.statuses j := by
  unfold processWrapsError
  (repeat' split) <;>
    simp [changeStatus, addUserException, openSomeUi_statuses, hj] <;>
    (repeat' split) <;>
    simp [changeStatus, addUserException, openSomeUi_statuses, hj]

/-- `_processWrapsFinally` never changes the store state value. -/
theorem processWrapsFinally_state (s : StoreSt St) (a : ActionM St) :
    (processWrapsFinally s a).1.state = s.state := by
  unfold processWrapsFinally
  (repeat' split) <;>
    simp [changeStatus, forceUiUpdate, checkAllActionConditions_state] <;>
    (repeat' split) <;>
    simp [changeStatus, forceUiUpdate, checkAllActionConditions_state]

theorem processWrapsFinally_dispatchCount (s : StoreSt St) (a : ActionM St) :
    (processWrapsFinally s a).1.dispatchCount = s.dispatchCount := by
  unfold processWrapsFinally
  (repeat' split) <;>
    simp [changeStatus, forceUiUpdate, checkAllActionConditions_dispatchCount] <;>
    (repeat' split) <;>
    simp [changeStatus, forceUiUpdate, checkAllActionConditions_dispatchCount]

/-- After `_processWrapsFinally` the action's status is its status at
entry with `hasFinishedMethodAfter` set. -/
theorem processWrapsFinally_status_self (s : StoreSt St) (a : ActionM St) :
    (processWrapsFinally s a).1.statuses a.ref.id =
      (s.statuses a.ref.id).copy { hasFinishedMethodAfter := some true } := by
  unfold processWrapsFinally
  (repeat' split) <;>
    simp [changeStatus, forceUiUpdate, checkAllActionConditions_statuses] <;>
    (repeat' split) <;>
    simp [changeStatus, forceUiUpdate, checkAllActionConditions_statuses]

/-- `_processWrapsFinally` always runs `after()`: its trace contains the
`afterRun` event of the action. -/
theorem processWrapsFinally_afterRun (s : StoreSt St) (a : ActionM St) :
    Ev.afterRun a.ref.id ∈ (processWrapsFinally s a).2 := by
  unfold processWrapsFinally
  (repeat' split) <;> simp

theorem calculateIsWaitingIsFailed_state (s : StoreSt St) (a : ActionM St) :
    (calculateIsWaitingIsFailed s a).1.state = s.state := by
  unfold calculateIsWaitingIsFailed
  by_cases h1 : a.ref.typeId ∈ s.actionsWeCanCheckFailed <;>
    by_cases h2 : (mapDelete s.failedActions a.ref.typeId).2 = true <;>
    simp [h1, h2, forceUiUpdate] <;> (repeat' split) <;> simp [forceUiUpdate]

theorem calculateIsWaitingIsFailed_statuses (s : StoreSt St) (a : ActionM St) :
    (calculateIsWaitingIsFailed s a).1.statuses = s.statuses := by
  unfold calculateIsWaitingIsFailed
  by_cases h1 : a.ref.typeId ∈ s.actionsWeCanCheckFailed <;>
    by_cases h2 : (mapDelete s.failedActions a.ref.typeId).2 = true <;>
    simp [h1, h2, forceUiUpdate] <;> (repeat' split) <;> simp [forceUiUpdate]

theorem calculateIsWaitingIsFailed_retryOf (s : StoreSt St) (a : ActionM St) :
    (calculateIsWaitingIsFailed s a).1.retryOf = s.retryOf := by
  unfold calculateIsWaitingIsFailed
  by_cases h1 : a.ref.typeId ∈ s.actionsWeCanCheckFailed <;>
    by_cases h2 : (mapDelete s.failedActions a.ref.typeId).2 = true <;>
    simp [h1, h2, forceUiUpdate] <;> (repeat' split) <;> simp [forceUiUpdate]

theorem calculateIsWaitingIsFailed_dispatchCount (s : StoreSt St)
    (a : ActionM St) :
    (calculateIsWaitingIsFailed s a).1.dispatchCount = s.dispatchCount := by
  unfold calculateIsWaitingIsFailed
  by_cases h1 : a.ref.typeId ∈ s.actionsWeCanCheckFailed <;>
    by_cases h2 : (mapDelete s.failedActions a.ref.typeId).2 = true <;>
    simp [h1, h2, forceUiUpdate] <;> (repeat' split) <;> simp [forceUiUpdate]

theorem calculateIsWaitingIsFailed_actionsInProgress (s : StoreSt St)
    (a : ActionM St) :
    (calculateIsWaitingIsFailed s a).1.actionsInProgress
      = refAdd s.actionsInProgress a.ref := by
  unfold calculateIsWaitingIsFailed
  by_cases h1 : a.ref.typeId ∈ s.actionsWeCanCheckFailed <;>
    by_cases h2 : (mapDelete s.failedActions a.ref.typeId).2 = true <;>
    simp [h1, h2, forceUiUpdate] <;> (repeat' split) <;> simp [forceUiUpdate]

/-- When the default error handling is in place (identity `wrapError`,
no `globalWrapError`, no error observer) a non-user error is rethrown by
`_processWrapsError`. -/
theorem processWrapsError_rethrow_default (cfg : StoreConfig St)
    (s : StoreSt St) (a : ActionM St) (e : Err)
    (hw : a.wrapError e = some e) (hg : cfg.globalWrapError = none)
    (ho : cfg.errorObserver = none) (hu : e.isUserException = false) :
    (processWrapsError cfg s a e).2.2 = some e := by
  unfold processWrapsError
  simp [hw, hg, ho, hu]

/-! ### Claim C2 -/

/-- Claim C2: `dispatchSync` on an action whose `before` or `reduce`
returns a promise (including any retry-enabled action) leaves the store
state unchanged — whatever the error pipeline does — and, under the
store's default error handling (the action's default identity
`wrapError`, no `globalWrapError`, no error observer), the call throws
a `StoreException` synchronously: the exception raised inside
`_runFromStart` on the `mustBeSync` path is caught by `_wraps`, routed
through `_processWrapsError`, and rethrown out of `dispatchSync`. -/
theorem dispatchSync_async_action_policy (cfg : StoreConfig St) (fuel : Nat)
    (s : StoreSt St) (a : ActionM St)
    (hmock : mockActionOrNot cfg a = some a)
    (habort : a.abortDispatch = .ok false)
    (hfresh : (s.statuses a.ref.id).isDispatched = false)
    (hretry0 : (s.retryOf a.ref.id).retryOn = false)
    (hasync : (∃ rb, a.before = .promise rb) ∨
      (a.before = .ok ∧ (a.retry.isSome ∨
        (a.retry = none ∧ ∃ pr, a.reduce 0 = .promise pr)))) :
    (dispatchSync cfg fuel s a).1.state = s.state ∧
    ((∀ e, a.wrapError e = some e) → cfg.globalWrapError = none →
      cfg.errorObserver = none →
      ∃ e, (dispatchSync cfg fuel s a).2.2 = .threwSync e ∧
        e.isStoreException = true) := by
  rw [dispatchSync_eq_processDispatch cfg fuel s a hmock habort]
  unfold processDispatch
  have hthrew : ∃ e, e.isUserException = false ∧ e.isStoreException = true ∧
      (runFromStart fuel (calculateIsWaitingIsFailed (injectStore (changeStatus
        { s with dispatchCount := s.dispatchCount + 1 } a.ref.id
        { isDispatched := some true }) a) a).1 a true).2.2 = .threw e ∧
      (runFromStart fuel (calculateIsWaitingIsFailed (injectStore (changeStatus
        { s with dispatchCount := s.dispatchCount + 1 } a.ref.id
        { isDispatched := some true }) a) a).1 a true).1.state = s.state := by
    rcases hasync with ⟨rb, hb⟩ | ⟨hb, hr | ⟨hrn, pr, hpr⟩⟩
    · refine ⟨storeExSyncBefore, by decide, by decide, ?_, ?_⟩ <;>
      · unfold runFromStart
        simp [hb, calculateIsWaitingIsFailed_state, injectStore_state,
          changeStatus]
    · obtain ⟨u, hu⟩ := Option.isSome_iff_exists.mp hr
      refine ⟨storeExSyncReduce, by decide, by decide, ?_, ?_⟩ <;>
      · unfold runFromStart
        simp [hb, ifRetryIsOn, calculateIsWaitingIsFailed_retryOf,
          calculateIsWaitingIsFailed_state, injectStore, changeStatus, hu,
          mergeRetry]
    · refine ⟨storeExSyncReduce, by decide, by decide, ?_, ?_⟩ <;>
      · unfold runFromStart
        simp [hb, hpr, ifRetryIsOn, calculateIsWaitingIsFailed_retryOf,
          calculateIsWaitingIsFailed_state, injectStore, changeStatus, hrn,
          hretry0]
  obtain ⟨e, heu, hes, hrun, hstate⟩ := hthrew
  simp only [hfresh, Bool.false_eq_true, if_false]
  unfold wraps
  simp only [hrun]
  constructor
  · rcases hth : (processWrapsError cfg
      (runFromStart fuel (calculateIsWaitingIsFailed (injectStore (changeStatus
        { s with dispatchCount := s.dispatchCount + 1 } a.ref.id
        { isDispatched := some true }) a) a).1 a true).1 a e).2.2 with _ | e' <;>
      simp [hth, processWrapsFinally_state, processWrapsError_state, hstate]
  · intro hw hg ho
    rw [processWrapsError_rethrow_default cfg _ a e (hw e) hg ho heu]
    exact ⟨e, rfl, hes⟩

/-- Witness for C2: an ordinary async-reduce action under default
error handling makes `dispatchSync` throw while leaving the state
untouched. -/
theorem dispatchSync_async_action_policy_witness :
    (dispatchSync cfg0 10 store0
      { ref := ref1, before := .ok
        reduce := fun _ => .promise (.ok .nullRes) }).1.state = 0 ∧
    ∃ e, (dispatchSync cfg0 10 store0
      { ref := ref1, before := .ok
        reduce := fun _ => .promise (.ok .nullRes) }).2.2 = .threwSync e ∧
      e.isStoreException = true := by
  have h := dispatchSync_async_action_policy cfg0 10 store0
    { ref := ref1, before := .ok, reduce := fun _ => .promise (.ok .nullRes) }
    (by rfl) (by rfl) (by decide) (by decide)
    (Or.inr ⟨rfl, Or.inr ⟨rfl, ⟨.ok .nullRes, rfl⟩⟩⟩)
  exact ⟨h.1, h.2 (fun e => rfl) rfl rfl⟩

theorem registerState_dispatchCount (s : StoreSt St) (a : ActionM St)
    (st' : St) : (registerState s a st').1.dispatchCount = s.dispatchCount := by
  unfold registerState
  (repeat' split) <;>
    simp [forceUiUpdate, checkAllActionConditions_dispatchCount] <;>
    (repeat' split) <;>
    simp [forceUiUpdate, checkAllActionConditions_dispatchCount]

theorem runFromStart_dispatchCount (fuel : Nat) (s : StoreSt St)
    (a : ActionM St) (m : Bool) :
    (runFromStart fuel s a m).1.dispatchCount = s.dispatchCount := by
  unfold runFromStart
  cases a.before <;> (repeat' split) <;>
    simp [changeStatus, registerState_dispatchCount] <;>
    (repeat' split) <;>
    simp [changeStatus, registerState_dispatchCount]

theorem wraps_dispatchCount (cfg : StoreConfig St) (s : StoreSt St)
    (a : ActionM St) (rr : RunRes St) :
    (wraps cfg s a rr).1.dispatchCount = s.dispatchCount := by
  unfold wraps
  cases rr <;>
    simp [processWrapsFinally_dispatchCount, processWrapsError_dispatchCount]

/-- Any dispatch that passes the double-dispatch guard bumps the
dispatch count by exactly one, whatever else happens. -/
theorem processDispatch_dispatchCount (cfg : StoreConfig St) (fuel : Nat)
    (s : StoreSt St) (a : ActionM St) (m : Bool)
    (hfresh : (s.statuses a.ref.id).isDispatched = false) :
    (processDispatch cfg fuel s a m).1.dispatchCount = s.dispatchCount + 1 := by
  unfold processDispatch
  simp [hfresh, wraps_dispatchCount, runFromStart_dispatchCount,
    calculateIsWaitingIsFailed_dispatchCount, injectStore, changeStatus]
  cases a.retry <;> simp

/-! ### Claim C4 -/

/-- A store with an action of type 10 (id 2) currently in progress. -/
def storeBusy : StoreSt Nat :=
  { state := 0
    actionsInProgress := [ref2]
    statuses := fun i => if i = 2 then { isDispatched := true } else {} }

/-- A non-reentrant action of the same exact type 10 whose reducer sets
the state to 5. -/
def actNR : ActionM Nat :=
  { ref := ref1, before := .ok, reduce := fun _ => .retState 5
    nonReentrant := true }

/-- Claim C4 counterexample: while an action of the exact same type is
in progress, dispatching a `nonReentrant` action through `dispatch` is
dropped, but through `dispatchSync` or `dispatchAndWait` it is NOT
dropped — its reducer runs and changes the state — refuting "for every
dispatch entry point". -/
theorem nonReentrant_not_checked_by_all_entry_points :
    actNR.nonReentrant = true ∧
    (isWaiting storeBusy 10).2 = true ∧
    (dispatch cfg0 10 storeBusy actNR).2.2 = .ignored ∧
    (dispatch cfg0 10 storeBusy actNR).1.state = 0 ∧
    (dispatchSync cfg0 10 storeBusy actNR).1.state = 5 ∧
    (dispatchAndWait cfg0 10 storeBusy actNR).1.state = 5 := by
  exact ⟨by decide, by decide, rfl, by decide, by decide, by decide⟩

/-- Claim C4 as amended: only the `dispatch` entry point checks
`nonReentrant`.  There, when some in-progress action matches the
dispatched action's type (via `instanceof`, so subtypes match too), the
dispatch is dropped entirely and silently before `before()` runs — no
change to state, statuses, the in-progress set, the failed-actions map
or the dispatch count, and no events.  `dispatchAndWait` and
`dispatchSync` perform no such check and proceed into
`_processDispatch` (bumping the dispatch count). -/
theorem nonReentrant_only_checked_by_dispatch (cfg : StoreConfig St)
    (fuel : Nat) (s : StoreSt St) (a : ActionM St)
    (hmock : mockActionOrNot cfg a = some a)
    (habort : a.abortDispatch = .ok false)
    (hNR : a.nonReentrant = true)
    (hwait : s.actionsInProgress.any (fun r => r.instOf a.ref.typeId) = true)
    (hfresh : (s.statuses a.ref.id).isDispatched = false) :
    (dispatch cfg fuel s a).2.2 = .ignored ∧
    (dispatch cfg fuel s a).1.state = s.state ∧
    (dispatch cfg fuel s a).1.statuses = s.statuses ∧
    (dispatch cfg fuel s a).1.actionsInProgress = s.actionsInProgress ∧
    (dispatch cfg fuel s a).1.failedActions = s.failedActions ∧
    (dispatch cfg fuel s a).1.dispatchCount = s.dispatchCount ∧
    (dispatch cfg fuel s a).2.1 = [] ∧
    (dispatchSync cfg fuel s a).1.dispatchCount = s.dispatchCount + 1 ∧
    (dispatchAndWait cfg fuel s a).1.dispatchCount = s.dispatchCount + 1 := by
  have hd : dispatch cfg fuel s a = ((isWaiting s a.ref.typeId).1, [], .ignored) := by
    unfold dispatch
    simp [hmock, habort, hNR, isWaiting, hwait]
  rw [dispatchSync_eq_processDispatch cfg fuel s a hmock habort,
    dispatchAndWait_eq_processDispatch cfg fuel s a hmock habort, hd]
  refine ⟨rfl, by simp [isWaiting], by simp [isWaiting], by simp [isWaiting],
    by simp [isWaiting], by simp [isWaiting], rfl,
    processDispatch_dispatchCount cfg fuel s a true hfresh, ?_⟩
  rw [processDispatch_dispatchCount]
  · simp [hfresh]

/-- Witness for the amended C4, at the concrete busy store. -/
theorem nonReentrant_only_checked_by_dispatch_witness :
    (dispatch cfg0 10 storeBusy actNR).2.2 = .ignored ∧
    (dispatchSync cfg0 10 storeBusy actNR).1.dispatchCount =
      storeBusy.dispatchCount + 1 := by
  have h := nonReentrant_only_checked_by_dispatch cfg0 10 storeBusy actNR
    (by rfl) (by rfl) (by rfl) (by decide) (by decide)
  exact ⟨h.1, h.2.2.2.2.2.2.2.1⟩

/-! ### Claim C5 -/

/-- An action with an asynchronous `before`, dispatched twice through
`dispatchAndWait` in the C5 counterexample. -/
def actC5 : ActionM Nat :=
  { ref := ref1, before := .promise (.ok ()), reduce := fun _ => .retNull }

/-- The store after the first `dispatchAndWait(actC5)` returned (its
`before()` promise still pending). -/
def d1C5 : StoreSt Nat × List Ev × DispatchCallRes Nat :=
  dispatchAndWait cfg0 10 store0 actC5

/-- The store after the rejected second `dispatchAndWait(actC5)`. -/
def d2C5 : StoreSt Nat × List Ev × DispatchCallRes Nat :=
  dispatchAndWait cfg0 10 d1C5.1 actC5

/-- Claim C5 counterexample: the second dispatch of the same action
instance does throw the store exception, but it is NOT free of side
effects: it increments the dispatch count (1 → 2) and — having run
`_createPromise` before the throw — replaces the action's promise
resolver (generation 1 → 2), so that when the first dispatch finally
completes, it resolves the second call's promise (generation 2) and the
first `dispatchAndWait` promise is never fulfilled. -/
theorem second_dispatch_has_side_effects :
    d1C5.2.2 = .returnedOk (some (.pendBefore (.ok ()))) ∧
    d2C5.2.2 = .threwSync storeExAlreadyDispatched ∧
    d1C5.1.dispatchCount = 1 ∧
    d2C5.1.dispatchCount = 2 ∧
    d1C5.1.promiseGen 1 = 1 ∧
    d2C5.1.promiseGen 1 = 2 ∧
    (completePending cfg0 10 d2C5.1 actC5
      (.pendBefore (.ok ()))).1.resolvedPromises.map (fun p => p.2.1) = [2] := by
  exact ⟨rfl, rfl, by decide, by decide, by decide, by decide, by decide⟩

/-- Claim C5 as amended: for an already-dispatched action instance (with
`nonReentrant = false`, else the `dispatch` entry point's reentrancy
guard applies first), a second call through any entry point throws a
store-contract exception and leaves the store state, every action
status, the in-progress set, the failed-actions map and the resolved
promises untouched — but it DOES increment the dispatch count, and a
second call through `dispatchAndWait` additionally replaces the
action's promise resolver generation before throwing (so the first
call's pending promise is never fulfilled). -/
theorem second_dispatch_throws_with_count_bump (cfg : StoreConfig St)
    (fuel : Nat) (s : StoreSt St) (a : ActionM St)
    (hmock : mockActionOrNot cfg a = some a)
    (habort : a.abortDispatch = .ok false)
    (hnr : a.nonReentrant = false)
    (hdisp : (s.statuses a.ref.id).isDispatched = true) :
    ((dispatch cfg fuel s a).2.2 = .threwSync storeExAlreadyDispatched ∧
      (dispatch cfg fuel s a).1 =
        { s with dispatchCount := s.dispatchCount + 1 }) ∧
    ((dispatchSync cfg fuel s a).2.2 = .threwSync storeExAlreadyDispatched ∧
      (dispatchSync cfg fuel s a).1 =
        { s with dispatchCount := s.dispatchCount + 1 }) ∧
    ((dispatchAndWait cfg fuel s a).2.2 = .threwSync storeExAlreadyDispatched ∧
      (dispatchAndWait cfg fuel s a).1 =
        { s with dispatchCount := s.dispatchCount + 1
                 promiseGen := fun i => if i = a.ref.id
                   then s.promiseGen a.ref.id + 1 else s.promiseGen i }) := by
  rw [dispatch_eq_processDispatch cfg fuel s a hmock habort hnr,
    dispatchSync_eq_processDispatch cfg fuel s a hmock habort,
    dispatchAndWait_eq_processDispatch cfg fuel s a hmock habort]
  unfold processDispatch
  simp [hdisp]

/-- Witness for the amended C5 at a concrete already-dispatched
action. -/
theorem second_dispatch_throws_with_count_bump_witness :
    (dispatchAndWait cfg0 10 d1C5.1 actC5).2.2 =
      .threwSync storeExAlreadyDispatched ∧
    (dispatchAndWait cfg0 10 d1C5.1 actC5).1.dispatchCount =
      d1C5.1.dispatchCount + 1 := by
  have h := second_dispatch_throws_with_count_bump cfg0 10 d1C5.1 actC5
    (by rfl) (by rfl) (by rfl) (by decide)
  exact ⟨h.2.2.1, by rw [h.2.2.2]⟩

theorem changeStatus_retryOf (s : StoreSt St) (i : Nat) (p : StatusParams) :
    (changeStatus s i p).retryOf = s.retryOf := by
  simp [changeStatus]

theorem changeStatus_state (s : StoreSt St) (i : Nat) (p : StatusParams) :
    (changeStatus s i p).state = s.state := by
  simp [changeStatus]

theorem injectStore_retryOf_noretry (s : StoreSt St) (a : ActionM St)
    (h : a.retry = none) : (injectStore s a).retryOf = s.retryOf := by
  unfold injectStore
  simp [h]

/-! ### Claim C8 -/

/-- Claim C8: abort semantics.  (a) If `abortDispatch()` returns true,
every entry point drops the dispatch with no change to the store at all
(in particular the action's status is untouched, so `isDispatched` stays
false).  (b) If the reducer produces a candidate state (synchronously,
for `b`, or through a resolved async state-function, for `c`) and
`abortReduce(candidate)` returns true, the candidate is discarded (the
store state is unchanged) while `hasFinishedMethodReduce` is still set
to true, and `after()` still runs (the `afterRun` event appears and
`hasFinishedMethodAfter` becomes true). -/
theorem abort_semantics (cfg : StoreConfig St) (fuel : Nat) (s : StoreSt St)
    (a b c : ActionM St) (v w : St) (f : St → Option St)
    (hmock : mockActionOrNot cfg a = some a)
    (habortT : a.abortDispatch = .ok true)
    (hmockb : mockActionOrNot cfg b = some b)
    (habortb : b.abortDispatch = .ok false)
    (hnrb : b.nonReentrant = false)
    (hfreshb : (s.statuses b.ref.id).isDispatched = false)
    (hretryb : (s.retryOf b.ref.id).retryOn = false)
    (hretb : b.retry = none)
    (hbeforeb : b.before = .ok)
    (hredb : b.reduce 0 = .retState v)
    (hvne : v ≠ s.state)
    (habr : b.abortReduce v = true)
    (hmockc : mockActionOrNot cfg c = some c)
    (habortc : c.abortDispatch = .ok false)
    (hnrc : c.nonReentrant = false)
    (hfreshc : (s.statuses c.ref.id).isDispatched = false)
    (hretryc : (s.retryOf c.ref.id).retryOn = false)
    (hretc : c.retry = none)
    (hbeforec : c.before = .ok)
    (hredc : c.reduce 0 = .promise (.ok (.fnRes f)))
    (hf : f s.state = some w)
    (habrc : c.abortReduce w = true) :
    (dispatch cfg fuel s a = (s, [], .ignored)) ∧
    (dispatchSync cfg fuel s a = (s, [], .ignored)) ∧
    (dispatchAndWait cfg fuel s a = (s, [], .ignored)) ∧
    ((dispatch cfg fuel s b).1.state = s.state ∧
      ((dispatch cfg fuel s b).1.statuses b.ref.id).hasFinishedMethodReduce = true ∧
      ((dispatch cfg fuel s b).1.statuses b.ref.id).hasFinishedMethodAfter = true ∧
      Ev.afterRun b.ref.id ∈ (dispatch cfg fuel s b).2.1) ∧
    ((dispatchAndComplete cfg fuel s c).store.state = s.state ∧
      ((dispatchAndComplete cfg fuel s c).store.statuses c.ref.id).hasFinishedMethodReduce = true ∧
      ((dispatchAndComplete cfg fuel s c).store.statuses c.ref.id).hasFinishedMethodAfter = true ∧
      Ev.afterRun c.ref.id ∈ (dispatchAndComplete cfg fuel s c).trace ∧
      (dispatchAndComplete cfg fuel s c).cont = some (.completed none)) := by
  refine ⟨?_, ?_, ?_, ?_, ?_⟩
  · unfold dispatch
    simp [hmock, habortT]
  · unfold dispatchSync
    simp [hmock, habortT]
  · unfold dispatchAndWait
    simp [hmock, habortT]
  · rw [dispatch_eq_processDispatch cfg fuel s b hmockb habortb hnrb]
    unfold processDispatch runFromStart wraps
    refine ⟨?_, ?_, ?_, ?_⟩ <;>
      simp [hfreshb, hbeforeb, hredb, ifRetryIsOn,
        calculateIsWaitingIsFailed_retryOf, injectStore_retryOf_noretry _ _ hretb,
        changeStatus_retryOf, hretryb, calculateIsWaitingIsFailed_state,
        injectStore_state, changeStatus_state, hvne, habr,
        processWrapsFinally_state, processWrapsFinally_status_self,
        processWrapsFinally_afterRun, calculateIsWaitingIsFailed_statuses,
        injectStore_statuses, changeStatus, ActionStatus.copy]
  · unfold dispatchAndComplete
    rw [dispatch_eq_processDispatch cfg fuel s c hmockc habortc hnrc]
    unfold processDispatch runFromStart wraps completePending
      runAsyncReduceOnwards applyResolvedReduce
    refine ⟨?_, ?_, ?_, ?_, ?_⟩ <;>
      simp [hfreshc, hbeforec, hredc, ifRetryIsOn,
        calculateIsWaitingIsFailed_retryOf, injectStore_retryOf_noretry _ _ hretc,
        changeStatus_retryOf, hretryc, calculateIsWaitingIsFailed_state,
        injectStore_state, changeStatus_state, writeRetry, hf, habrc,
        processWrapsFinally_state, processWrapsFinally_status_self,
        processWrapsFinally_afterRun, calculateIsWaitingIsFailed_statuses,
        injectStore_statuses, changeStatus, ActionStatus.copy]

/-- A third action object, of its own type. -/
def ref3 : ARef := { id := 3, typeId := 30, superTypes := [] }

/-- Witness for C8 at concrete actions: an aborting `abortDispatch`
leaves the store untouched; sync and async `abortReduce` discard the
candidate state while `after()` still runs. -/
theorem abort_semantics_witness :
    (dispatch cfg0 10 store0
      { ref := ref1, before := .ok, reduce := fun _ => .retNull
        abortDispatch := .ok true } = (store0, [], .ignored)) ∧
    (dispatch cfg0 10 store0
      { ref := ref2, before := .ok, reduce := fun _ => .retState 5
        abortReduce := fun st => st == 5 }).1.state = 0 ∧
    (dispatchAndComplete cfg0 10 store0
      { ref := ref3, before := .ok
        reduce := fun _ => .promise (.ok (.fnRes (fun st => some (st + 7))))
        abortReduce := fun st => st == 7 }).store.state = 0 := by
  have h := abort_semantics cfg0 10 store0
    { ref := ref1, before := .ok, reduce := fun _ => .retNull
      abortDispatch := .ok true }
    { ref := ref2, before := .ok, reduce := fun _ => .retState 5
      abortReduce := fun st => st == 5 }
    { ref := ref3, before := .ok
      reduce := fun _ => .promise (.ok (.fnRes (fun st => some (st + 7))))
      abortReduce := fun st => st == 7 }
    5 7 (fun st => some (st + 7))
    rfl rfl rfl rfl rfl (by decide) (by decide) rfl rfl rfl (by decide)
    (by decide) rfl rfl rfl (by decide) (by decide) rfl rfl rfl rfl
    (by decide)
  exact ⟨h.1, h.2.2.2.1.1, h.2.2.2.2.1⟩

theorem nextDelay_attempts (r : RetryOptions) :
    (nextDelay r).1.attempts = r.attempts := by
  unfold nextDelay
  simp

theorem nextDelay_maxRetries (r : RetryOptions) :
    (nextDelay r).1.maxRetries = r.maxRetries := by
  unfold nextDelay
  simp

/-- The retry loop under a reducer that fails on every attempt: with
`maxRetries = N` and `attempts = k ≤ N` at entry, the wrapped reducer is
invoked exactly `N + 1 - k` more times, the final `attempts` is `N + 1`,
and the promise rejects with the last error. -/
theorem retryLoop_allFail (reduce : Nat → ReduceOutcome St) (N : Nat)
    (hfail : ∀ n, ∃ e, interpretAttempt (reduce n) = .error e) :
    ∀ fuel (r : RetryOptions), r.maxRetries = (N : Int) → r.attempts ≤ N →
    N - r.attempts ≤ fuel →
    ∃ res, retryLoop reduce fuel r = some res ∧
      res.invocations = N + 1 - r.attempts ∧
      res.retryFinal.attempts = N + 1 ∧
      (∃ e, res.outcome = .error e) := by
  intro fuel
  induction fuel with
  | zero =>
    intro r hN hk hf
    have hkN : r.attempts = N := by omega
    obtain ⟨e, he⟩ := hfail r.attempts
    unfold retryLoop
    simp only [he]
    split
    · exact ⟨_, rfl, by simp [hkN], by simp [hkN], ⟨e, rfl⟩⟩
    · next hcon =>
      exfalso
      simp [hN] at hcon
      omega
  | succ fuel ih =>
    intro r hN hk hf
    obtain ⟨e, he⟩ := hfail r.attempts
    unfold retryLoop
    simp only [he]
    by_cases hend : r.attempts = N
    · split
      · exact ⟨_, rfl, by simp [hend], by simp [hend], ⟨e, rfl⟩⟩
      · next hcon =>
        exfalso
        simp [hN] at hcon
        omega
    · split
      · next hcon =>
        exfalso
        simp [hN] at hcon
        omega
      · have h1 : (nextDelay { r with attempts := r.attempts + 1 }).1.maxRetries
            = (N : Int) := by
          rw [nextDelay_maxRetries]
          exact hN
        have h2 := nextDelay_attempts { r with attempts := r.attempts + 1 }
        obtain ⟨res, hres, hinv, hatt, hout⟩ := ih (nextDelay
          { r with attempts := r.attempts + 1 }).1 h1 (by rw [h2]; simp; omega)
          (by rw [h2]; simp; omega)
        rw [hres]
        refine ⟨_, rfl, ?_, hatt, hout⟩
        simp only [hinv, nextDelay_attempts]
        omega

/-- The retry loop under a reducer that fails on attempts `0..K0-1` and
succeeds on attempt `K0 ≤ maxRetries`: starting from `attempts = k ≤
K0`, the wrapped reducer is invoked exactly `K0 + 1 - k` more times, the
final `attempts` is `K0` (only failures count), and the promise
resolves with the successful value. -/
theorem retryLoop_succeedAt (reduce : Nat → ReduceOutcome St) (N K0 : Nat)
    (ar : AsyncRes St)
    (hfail : ∀ n, n < K0 → ∃ e, interpretAttempt (reduce n) = .error e)
    (hok : interpretAttempt (reduce K0) = .ok ar)
    (hKN : K0 ≤ N) :
    ∀ fuel (r : RetryOptions), r.maxRetries = (N : Int) → r.attempts ≤ K0 →
    K0 - r.attempts ≤ fuel →
    ∃ res, retryLoop reduce fuel r = some res ∧
      res.invocations = K0 + 1 - r.attempts ∧
      res.retryFinal.attempts = K0 ∧
      res.outcome = .ok ar := by
  intro fuel
  induction fuel with
  | zero =>
    intro r hN hk hf
    have hkK : r.attempts = K0 := by omega
    unfold retryLoop
    rw [hkK, hok]
    exact ⟨_, rfl, by simp [hkK], by simp [hkK], rfl⟩
  | succ fuel ih =>
    intro r hN hk hf
    by_cases hend : r.attempts = K0
    · unfold retryLoop
      rw [hend, hok]
      exact ⟨_, rfl, by simp [hend], by simp [hend], rfl⟩
    · obtain ⟨e, he⟩ := hfail r.attempts (by omega)
      unfold retryLoop
      simp only [he]
      split
      · next hcon =>
        exfalso
        simp [hN] at hcon
        omega
      · have h1 : (nextDelay { r with attempts := r.attempts + 1 }).1.maxRetries
            = (N : Int) := by
          rw [nextDelay_maxRetries]
          exact hN
        have h2 := nextDelay_attempts { r with attempts := r.attempts + 1 }
        obtain ⟨res, hres, hinv, hatt, hout⟩ := ih (nextDelay
          { r with attempts := r.attempts + 1 }).1 h1 (by rw [h2]; simp; omega)
          (by rw [h2]; simp; omega)
        rw [hres]
        refine ⟨_, rfl, ?_, hatt, hout⟩
        simp only [hinv, nextDelay_attempts]
        omega

theorem openSomeUi_retryOf (s : StoreSt St) :
    (openSomeUiToShowUserException s).retryOf = s.retryOf := by
  unfold openSomeUiToShowUserException
  (repeat' split) <;> simp

theorem checkAllActionConditions_retryOf (s : StoreSt St) (t : ARef) :
    (checkAllActionConditions s t).retryOf = s.retryOf := by
  unfold checkAllActionConditions
  simp

theorem processWrapsError_retryOf (cfg : StoreConfig St) (s : StoreSt St)
    (a : ActionM St) (e : Err) :
    (processWrapsError cfg s a e).1.retryOf = s.retryOf := by
  unfold processWrapsError
  (repeat' split) <;>
    simp [changeStatus, addUserException, openSomeUi_retryOf] <;>
    (repeat' split) <;>
    simp [changeStatus, addUserException, openSomeUi_retryOf]

theorem processWrapsFinally_retryOf (s : StoreSt St) (a : ActionM St) :
    (processWrapsFinally s a).1.retryOf = s.retryOf := by
  unfold processWrapsFinally
  (repeat' split) <;>
    simp [changeStatus, forceUiUpdate, checkAllActionConditions_retryOf] <;>
    (repeat' split) <;>
    simp [changeStatus, forceUiUpdate, checkAllActionConditions_retryOf]

theorem registerState_retryOf (s : StoreSt St) (a : ActionM St) (st' : St) :
    (registerState s a st').1.retryOf = s.retryOf := by
  unfold registerState
  (repeat' split) <;>
    simp [forceUiUpdate, checkAllActionConditions_retryOf] <;>
    (repeat' split) <;>
    simp [forceUiUpdate, checkAllActionConditions_retryOf]

theorem registerState_statuses (s : StoreSt St) (a : ActionM St) (st' : St) :
    (registerState s a st').1.statuses = s.statuses := by
  unfold registerState
  (repeat' split) <;>
    simp [forceUiUpdate, checkAllActionConditions_statuses] <;>
    (repeat' split) <;>
    simp [forceUiUpdate, checkAllActionConditions_statuses]

theorem applyResolvedReduce_retryOf (s : StoreSt St) (a : ActionM St)
    (ar : AsyncRes St) (chk : Bool) :
    (applyResolvedReduce s a ar chk).1.retryOf = s.retryOf := by
  unfold applyResolvedReduce
  (repeat' split) <;> simp [registerState_retryOf]

theorem applyResolvedReduce_statuses (s : StoreSt St) (a : ActionM St)
    (ar : AsyncRes St) (chk : Bool) :
    (applyResolvedReduce s a ar chk).1.statuses = s.statuses := by
  unfold applyResolvedReduce
  (repeat' split) <;> simp [registerState_statuses]

/-- `_processWrapsError` records the original error on the action's
status and leaves its `hasFinishedMethodAfter` flag alone. -/
theorem processWrapsError_status_self (cfg : StoreConfig St) (s : StoreSt St)
    (a : ActionM St) (e : Err) :
    ((processWrapsError cfg s a e).1.statuses a.ref.id).originalError = some e ∧
    ((processWrapsError cfg s a e).1.statuses a.ref.id).hasFinishedMethodAfter
      = (s.statuses a.ref.id).hasFinishedMethodAfter := by
  unfold processWrapsError
  (repeat' split) <;>
    simp [changeStatus, ActionStatus.copy, addUserException, openSomeUi_statuses] <;>
    (repeat' split) <;>
    simp [changeStatus, ActionStatus.copy, addUserException, openSomeUi_statuses]

/-- After the catch-plus-finally of `_wrapsAsync`, the action's status
carries the original error and `hasFinishedMethodAfter = true` — it is
`isCompletedFailed`. -/
theorem errThenFinally_status_self (cfg : StoreConfig St) (s : StoreSt St)
    (a : ActionM St) (e : Err) :
    ((errThenFinally cfg s a e).1.statuses a.ref.id).originalError = some e ∧
    ((errThenFinally cfg s a e).1.statuses a.ref.id).hasFinishedMethodAfter
      = true := by
  unfold errThenFinally
  have h := processWrapsError_status_self cfg s a e
  simp [processWrapsFinally_status_self, ActionStatus.copy, h.1]

theorem errThenFinally_retryOf (cfg : StoreConfig St) (s : StoreSt St)
    (a : ActionM St) (e : Err) :
    (errThenFinally cfg s a e).1.retryOf = s.retryOf := by
  unfold errThenFinally
  simp [processWrapsFinally_retryOf, processWrapsError_retryOf]

theorem changeStatus_statuses_self (s : StoreSt St) (i : Nat)
    (p : StatusParams) :
    (changeStatus s i p).statuses i = (s.statuses i).copy p := by
  simp [changeStatus]

theorem applyResolvedReduce_fnRes_inner (s : StoreSt St) (a : ActionM St)
    (f : St → Option St) (chk : Bool) :
    (applyResolvedReduce s a (.fnRes f) chk).2.2 = none := by
  unfold applyResolvedReduce
  (repeat' split) <;> simp_all

theorem mergeRetry_retryOn (b : RetryOptions) (u : Retry) :
    (mergeRetry b u).retryOn = true := rfl

theorem mergeRetry_attempts (b : RetryOptions) (u : Retry) :
    (mergeRetry b u).attempts = b.attempts := rfl

/-! ### Claim C3 -/

/-- A retry-enabled action whose reducer "succeeds" synchronously on the
very first attempt by returning a plain new state. -/
def actC3sync : ActionM Nat :=
  { ref := ref1, before := .ok, reduce := fun _ => .retState 42
    retry := some { retryOn := some true } }

/-- Claim C3 counterexample: a retry-enabled action (default
`maxRetries = 3`) whose reduce succeeds on attempt 1 (`attempts` stays
0, no failures) does NOT end `isCompletedOk`: because the retry wrapper
demands an async state-function reducer, the engine throws its
"should have an ASYNC reducer" `StoreException`, the candidate state is
lost, and the action ends `isCompletedFailed` — refuting "if it succeeds
on attempt K the action ends with status.isCompletedOk = true". -/
theorem retry_sync_success_ends_failed :
    ((dispatchAndComplete cfg0 10 store0 actC3sync).store.retryOf 1).attempts = 0 ∧
    ((dispatchAndComplete cfg0 10 store0 actC3sync).store.statuses 1).isCompletedOk
      = false ∧
    ((dispatchAndComplete cfg0 10 store0 actC3sync).store.statuses 1).isCompletedFailed
      = true ∧
    ((dispatchAndComplete cfg0 10 store0 actC3sync).store.statuses 1).originalError
      = some storeExRetryNeedsAsync ∧
    (dispatchAndComplete cfg0 10 store0 actC3sync).store.state = 0 := by
  refine ⟨?_, ?_, ?_, ?_, ?_⟩ <;>
    simp [dispatchAndComplete, dispatch, processDispatch, mockActionOrNot,
      calculateIsWaitingIsFailed, runFromStart, wraps, completePending,
      runAsyncReduceOnwards, runAsyncBeforeOnwards, errThenFinally,
      processWrapsError, processWrapsFinally, applyResolvedReduce,
      registerState, checkAllActionConditions, changeStatus, injectStore,
      ifRetryIsOn, writeRetry, retryLoop, interpretAttempt, nextDelay,
      mergeRetry, defaultRetryOptions, refAdd, refDelete, setAdd, mapSet,
      mapGet, mapDelete, mkSnap, forceUiUpdate, isWaiting, actC3sync, store0,
      cfg0, ref1, ActionStatus.copy, addUserException,
      openSomeUiToShowUserException, Err.isUserException, Err.openDialog,
      ActionStatus.isCompletedFailed, ActionStatus.isCompletedOk,
      ActionStatus.isCompleted, storeExRetryNeedsAsync]

/-- Claim C3 as amended: for a retry-enabled action (user options `u`,
merged `maxRetries = N ≥ 0`) whose `before` is synchronous: (1) if its
reduce fails on every attempt, the wrapped reducer runs exactly `N + 1`
times, the action's final `attempts` is `N + 1`, and the action ends
`isCompletedFailed`; (2) if attempts `0 .. K-2` fail and attempt
`K ≤ N + 1` succeeds with a value of the async reducer form (a promise
of a state-function or of null), the wrapped reducer runs exactly `K`
times and the action ends `isCompletedOk` with `attempts = K - 1`.  (A
retry-enabled action whose successful attempt yields a plain
synchronous state instead ends failed with a `StoreException` — see the
counterexample.) -/
theorem retry_attempt_counts (cfg : StoreConfig St) (fuel : Nat)
    (s : StoreSt St) (a : ActionM St) (u : Retry) (N : Nat)
    (hmock : mockActionOrNot cfg a = some a)
    (habort : a.abortDispatch = .ok false)
    (hnr : a.nonReentrant = false)
    (hfresh : s.statuses a.ref.id = {})
    (hret0 : s.retryOf a.ref.id = defaultRetryOptions)
    (hu : a.retry = some u)
    (hN : (mergeRetry defaultRetryOptions u).maxRetries = (N : Int))
    (hbefore : a.before = .ok)
    (hfuel : N ≤ fuel) :
    ((∀ n, ∃ e, interpretAttempt (a.reduce n) = .error e) →
      ∃ res, retryLoop a.reduce fuel (mergeRetry defaultRetryOptions u)
          = some res ∧
        res.invocations = N + 1 ∧
        ((dispatchAndComplete cfg fuel s a).store.retryOf a.ref.id).attempts
          = N + 1 ∧
        ((dispatchAndComplete cfg fuel s a).store.statuses a.ref.id).isCompletedFailed
          = true) ∧
    (∀ K0 (ar : AsyncRes St), K0 ≤ N →
      ((∃ f, ar = .fnRes f) ∨ ar = .nullRes) →
      (∀ n, n < K0 → ∃ e, interpretAttempt (a.reduce n) = .error e) →
      interpretAttempt (a.reduce K0) = .ok ar →
      ∃ res, retryLoop a.reduce fuel (mergeRetry defaultRetryOptions u)
          = some res ∧
        res.invocations = K0 + 1 ∧
        ((dispatchAndComplete cfg fuel s a).store.retryOf a.ref.id).attempts
          = K0 ∧
        ((dispatchAndComplete cfg fuel s a).store.statuses a.ref.id).isCompletedOk
          = true) := by
  have hd := dispatch_eq_processDispatch cfg fuel s a hmock habort hnr
  have hrt : (calculateIsWaitingIsFailed (injectStore (changeStatus
      { s with dispatchCount := s.dispatchCount + 1 } a.ref.id
      { isDispatched := some true }) a) a).1.retryOf a.ref.id
      = mergeRetry defaultRetryOptions u := by
    rw [calculateIsWaitingIsFailed_retryOf]
    unfold injectStore
    simp [hu, changeStatus, hret0]
  constructor
  · intro hfail
    obtain ⟨res, hres, hinv, hatt, e, hout⟩ := retryLoop_allFail a.reduce N
      hfail fuel (mergeRetry defaultRetryOptions u) hN
      (by simp [mergeRetry, defaultRetryOptions])
      (by simp [mergeRetry, defaultRetryOptions]; omega)
    refine ⟨res, hres, by rw [hinv, mergeRetry_attempts]; simp [defaultRetryOptions], ?_, ?_⟩ <;>
    · unfold dispatchAndComplete
      rw [hd]
      unfold processDispatch runFromStart wraps completePending
        runAsyncReduceOnwards
      have hst := errThenFinally_status_self cfg
      simp [hfresh, hbefore, ifRetryIsOn, hrt, hres, hout, writeRetry,
        mergeRetry_retryOn, changeStatus_retryOf, errThenFinally_retryOf, hatt,
        errThenFinally_status_self, ActionStatus.isCompletedFailed,
        ActionStatus.isCompleted, hst]
  · intro K0 ar hK0 har hfail hok
    obtain ⟨res, hres, hinv, hatt, hout⟩ := retryLoop_succeedAt a.reduce N K0
      ar hfail hok hK0 fuel (mergeRetry defaultRetryOptions u) hN
      (by simp [mergeRetry, defaultRetryOptions])
      (by simp [mergeRetry, defaultRetryOptions]; omega)
    rcases har with ⟨f, rfl⟩ | rfl
    · refine ⟨res, hres, by rw [hinv, mergeRetry_attempts]; simp [defaultRetryOptions], ?_, ?_⟩ <;>
      · unfold dispatchAndComplete
        rw [hd]
        unfold processDispatch runFromStart wraps completePending
          runAsyncReduceOnwards
        simp [hfresh, hbefore, ifRetryIsOn, hrt, hres, hout, writeRetry,
          mergeRetry_retryOn, applyResolvedReduce_fnRes_inner,
          processWrapsFinally_retryOf, applyResolvedReduce_retryOf,
          changeStatus_retryOf, hatt, processWrapsFinally_status_self,
          applyResolvedReduce_statuses, changeStatus_statuses_self,
          calculateIsWaitingIsFailed_statuses, injectStore_statuses,
          ActionStatus.copy, ActionStatus.isCompletedOk,
          ActionStatus.isCompleted]
    · refine ⟨res, hres, by rw [hinv, mergeRetry_attempts]; simp [defaultRetryOptions], ?_, ?_⟩ <;>
      · unfold dispatchAndComplete
        rw [hd]
        unfold processDispatch runFromStart wraps completePending
          runAsyncReduceOnwards
        simp [hfresh, hbefore, ifRetryIsOn, hrt, hres, hout, writeRetry,
          mergeRetry_retryOn, applyResolvedReduce,
          processWrapsFinally_retryOf,
          changeStatus_retryOf, hatt, processWrapsFinally_status_self,
          changeStatus_statuses_self,
          calculateIsWaitingIsFailed_statuses, injectStore_statuses,
          ActionStatus.copy, ActionStatus.isCompletedOk,
          ActionStatus.isCompleted]

/-- Witness for the amended C3: a retry action failing twice then
succeeding with a state-function ends `isCompletedOk` with `attempts =
2` after 3 invocations, and one failing once then succeeding with a
null resolution ends `isCompletedOk` with `attempts = 1` after 2
invocations. -/
theorem retry_attempt_counts_witness :
    ((∃ res, retryLoop (fun n => if n < 2 then .throws (.other 5)
        else .promise (.ok (.fnRes (fun st => some (st + 1))))) 10
        (mergeRetry defaultRetryOptions { retryOn := some true })
        = some res ∧ res.invocations = 3) ∧
    ((dispatchAndComplete cfg0 10 store0
      { ref := ref1, before := .ok
        reduce := fun n => if n < 2 then .throws (.other 5)
          else .promise (.ok (.fnRes (fun st => some (st + 1))))
        retry := some { retryOn := some true } }).store.statuses 1).isCompletedOk
      = true) ∧
    ((∃ res, retryLoop (fun n => if n < 1 then .throws (.other 5)
        else (ReduceOutcome.promise (.ok .nullRes) : ReduceOutcome Nat)) 10
        (mergeRetry defaultRetryOptions { retryOn := some true })
        = some res ∧ res.invocations = 2) ∧
    (((dispatchAndComplete cfg0 10 store0
      { ref := ref1, before := .ok
        reduce := fun n => if n < 1 then .throws (.other 5)
          else .promise (.ok .nullRes)
        retry := some { retryOn := some true } }).store.retryOf 1).attempts = 1 ∧
    ((dispatchAndComplete cfg0 10 store0
      { ref := ref1, before := .ok
        reduce := fun n => if n < 1 then .throws (.other 5)
          else .promise (.ok .nullRes)
        retry := some { retryOn := some true } }).store.statuses 1).isCompletedOk
      = true)) := by
  have h := (retry_attempt_counts cfg0 10 store0
    { ref := ref1, before := .ok
      reduce := fun n => if n < 2 then .throws (.other 5)
        else .promise (.ok (.fnRes (fun st => some (st + 1))))
      retry := some { retryOn := some true } }
    { retryOn := some true } 3
    rfl rfl rfl (by decide) (by decide) rfl (by decide) rfl
    (by omega)).2 2 (.fnRes (fun st => some (st + 1)))
    (by omega) (Or.inl ⟨fun st => some (st + 1), rfl⟩)
    (fun n hn => ⟨.other 5, by interval_cases n <;> rfl⟩) (by rfl)
  have h2 := (retry_attempt_counts cfg0 10 store0
    { ref := ref1, before := .ok
      reduce := fun n => if n < 1 then .throws (.other 5)
        else .promise (.ok .nullRes)
      retry := some { retryOn := some true } }
    { retryOn := some true } 3
    rfl rfl rfl (by decide) (by decide) rfl (by decide) rfl
    (by omega)).2 1 .nullRes
    (by omega) (Or.inr rfl)
    (fun n hn => ⟨.other 5, by interval_cases n <;> rfl⟩) (by rfl)
  obtain ⟨res, hres, hinv, _, hok⟩ := h
  obtain ⟨res2, hres2, hinv2, hatt2, hok2⟩ := h2
  exact ⟨⟨⟨res, hres, hinv⟩, hok⟩, ⟨res2, hres2, hinv2⟩, hatt2, hok2⟩

/-! ### Claim C1: the in-progress-set invariant -/

/-- Whether an action id is currently in the in-progress set. -/
def inProg (s : StoreSt St) (i : Nat) : Bool :=
  s.actionsInProgress.any (fun r => r.id == i)

theorem InvS_mk (s' s : StoreSt St)
    (hA : s'.actionsInProgress = s.actionsInProgress)
    (hS : s'.statuses = s.statuses) (h : InvS s) : InvS s' := by
  intro r hr
  rw [hS]
  exact h r (by rw [← hA]; exact hr)

theorem SnapOk_mkSnap (s : StoreSt St) (h : InvS s) : SnapOk (mkSnap s) := by
  unfold SnapOk mkSnap
  intro p hp
  simp only [List.mem_map] at hp
  obtain ⟨r, hr, rfl⟩ := hp
  exact h r hr

theorem InvS_changeStatus (s : StoreSt St) (i : Nat) (p : StatusParams)
    (hd : p.isDispatched = none ∨ p.isDispatched = some true)
    (ha : p.hasFinishedMethodAfter = none) (h : InvS s) :
    InvS (changeStatus s i p) := by
  intro r hr
  simp only [changeStatus] at hr ⊢
  obtain ⟨h1, h2⟩ := h r hr
  by_cases hi : r.id = i
  · subst hi
    simp only [if_pos rfl, ActionStatus.copy, ha, Option.getD_none]
    constructor
    · rcases hd with hd | hd <;> simp [hd, h1]
    · exact h2
  · simp only [if_neg hi]
    exact ⟨h1, h2⟩

theorem InvS_delete (s : StoreSt St) (i : Nat) (h : InvS s) :
    InvS { s with actionsInProgress := (refDelete s.actionsInProgress i).1 } := by
  intro r hr
  simp only [refDelete, List.mem_filter] at hr
  exact h r hr.1

theorem InvS_add (s : StoreSt St) (r0 : ARef)
    (hst : (s.statuses r0.id).isDispatched = true ∧
      (s.statuses r0.id).hasFinishedMethodAfter = false) (h : InvS s) :
    InvS { s with actionsInProgress := refAdd s.actionsInProgress r0 } := by
  intro r hr
  simp only [refAdd] at hr
  split at hr
  · exact h r hr
  · rcases List.mem_append.mp hr with hr | hr
    · exact h r hr
    · simp only [List.mem_singleton] at hr
      subst hr
      exact hst

/-- Setting `hasFinishedMethodAfter` on an action and deleting it from
the in-progress set in one step preserves the invariant. -/
theorem InvS_setAfter_delete (s : StoreSt St) (i : Nat) (p : StatusParams)
    (h : InvS s) :
    InvS { changeStatus s i p with
           actionsInProgress := (refDelete s.actionsInProgress i).1 } := by
  intro r hr
  simp only [refDelete, List.mem_filter] at hr
  obtain ⟨hmem, hne⟩ := hr
  simp only [changeStatus]
  rw [if_neg (by simpa using hne)]
  exact h r hmem

theorem InvS_forceUiUpdate (s : StoreSt St) (h : InvS s) :
    InvS (forceUiUpdate s) :=
  InvS_mk _ s (by simp [forceUiUpdate]) (by simp [forceUiUpdate]) h

theorem InvS_checkAllActionConditions (s : StoreSt St) (t : ARef)
    (h : InvS s) : InvS (checkAllActionConditions s t) :=
  InvS_mk _ s (checkAllActionConditions_actionsInProgress s t)
    (checkAllActionConditions_statuses s t) h

/-- Everything claim C1 needs to know about `_processWrapsFinally`: the
snapshots it logs satisfy the invariant, the invariant holds afterwards,
it adds nothing and applies no state, it always runs `after()`, and it
removes the action exactly once — after `after()` — when the action is
still in the set, and not at all otherwise. -/
theorem processWrapsFinally_full (s : StoreSt St) (a : ActionM St)
    (hInv : InvS s) :
    (∀ ev ∈ (processWrapsFinally s a).2, SnapOk ev) ∧
    InvS (processWrapsFinally s a).1 ∧
    (processWrapsFinally s a).2.count (Ev.addInProgress a.ref.id) = 0 ∧
    (processWrapsFinally s a).2.count (Ev.stateApplied a.ref.id) = 0 ∧
    (inProg s a.ref.id = true →
      (processWrapsFinally s a).2.count (Ev.removeInProgress a.ref.id) = 1 ∧
      List.Sublist [Ev.afterRun a.ref.id, Ev.removeInProgress a.ref.id]
        (processWrapsFinally s a).2) ∧
    (inProg s a.ref.id = false →
      (processWrapsFinally s a).2.count (Ev.removeInProgress a.ref.id) = 0 ∧
      List.Sublist [Ev.afterRun a.ref.id] (processWrapsFinally s a).2) := by
  have hInv2 : InvS { changeStatus s a.ref.id
      { hasFinishedMethodAfter := some true } with
      actionsInProgress := (refDelete s.actionsInProgress a.ref.id).1 } :=
    InvS_setAfter_delete s a.ref.id _ hInv
  unfold processWrapsFinally
  have hdel2 : (refDelete (changeStatus s a.ref.id
      { hasFinishedMethodAfter := some true }).actionsInProgress a.ref.id)
      = refDelete s.actionsInProgress a.ref.id := by
    simp [changeStatus]
  by_cases hmem : inProg s a.ref.id = true
  · have hd2 : (refDelete s.actionsInProgress a.ref.id).2 = true := by
      simpa [refDelete, inProg] using hmem
    simp only [hdel2, hd2, if_true, hmem]
    have hInv3 : InvS (checkAllActionConditions (forceUiUpdate
        { changeStatus s a.ref.id { hasFinishedMethodAfter := some true } with
          actionsInProgress := (refDelete s.actionsInProgress a.ref.id).1 })
        a.ref) :=
      InvS_checkAllActionConditions _ _ (InvS_forceUiUpdate _ hInv2)
    refine ⟨?_, ?_, ?_, ?_, ?_, ?_⟩
    · intro ev hev
      simp only [List.mem_append, List.mem_cons, List.mem_singleton,
        List.not_mem_nil, or_false, or_assoc] at hev
      rcases hev with h | h | h | h | h <;> (try subst h) <;>
        first
          | exact SnapOk_mkSnap _ hInv
          | exact SnapOk_mkSnap _ hInv3
          | trivial
    · split <;> (refine InvS_mk _ _ ?_ ?_ hInv3 <;> simp)
    · simp [List.count_append, List.count_cons, mkSnap]
    · simp [List.count_append, List.count_cons, mkSnap]
    · intro _
      constructor
      · simp [List.count_append, List.count_cons, mkSnap]
      · refine List.Sublist.cons _ (List.Sublist.cons₂ _
          (List.Sublist.cons₂ _ (List.nil_sublist _)))
    · intro hf
      simp at hf
  · have hmemF : inProg s a.ref.id = false := by
      simpa using hmem
    have hd2 : (refDelete s.actionsInProgress a.ref.id).2 = false := by
      simpa [refDelete, inProg] using hmemF
    simp only [hdel2, hd2, if_false, Bool.false_eq_true, hmemF]
    refine ⟨?_, ?_, ?_, ?_, ?_, ?_⟩
    · intro ev hev
      simp only [List.mem_append, List.mem_cons, List.mem_singleton,
        List.not_mem_nil, or_false, List.nil_append, or_assoc] at hev
      rcases hev with h | h | h <;> (try subst h) <;>
        first
          | exact SnapOk_mkSnap _ hInv
          | exact SnapOk_mkSnap _ hInv2
          | trivial
    · split <;> (refine InvS_mk _ _ ?_ ?_ hInv2 <;> simp)
    · simp [List.count_append, List.count_cons, mkSnap]
    · simp [List.count_append, List.count_cons, mkSnap]
    · intro hf
      simp at hf
    · intro _
      constructor
      · simp [List.count_append, List.count_cons, mkSnap]
      · refine List.Sublist.cons _ (List.Sublist.cons₂ _ (List.nil_sublist _))

/-- `_processWrapsError` logs exactly one snapshot, taken right after
`originalError` is recorded. -/
theorem processWrapsError_trace (cfg : StoreConfig St) (s : StoreSt St)
    (a : ActionM St) (e : Err) :
    (processWrapsError cfg s a e).2.1
      = [mkSnap (changeStatus s a.ref.id { originalError := some e })] := by
  unfold processWrapsError
  (repeat' split) <;> simp <;> (repeat' split) <;> simp

/-- `_processWrapsError` touches neither the `isDispatched` nor the
`hasFinishedMethodAfter` flag of any action. -/
theorem processWrapsError_status_kept (cfg : StoreConfig St) (s : StoreSt St)
    (a : ActionM St) (e : Err) (j : Nat) :
    ((processWrapsError cfg s a e).1.statuses j).isDispatched
        = (s.statuses j).isDispatched ∧
    ((processWrapsError cfg s a e).1.statuses j).hasFinishedMethodAfter
        = (s.statuses j).hasFinishedMethodAfter := by
  unfold processWrapsError
  by_cases hj : j = a.ref.id <;>
    · (repeat' split) <;>
        simp [changeStatus, ActionStatus.copy, addUserException,
          openSomeUi_statuses, hj] <;>
        (repeat' split) <;>
        simp [changeStatus, ActionStatus.copy, addUserException,
          openSomeUi_statuses, hj]

theorem InvS_processWrapsError (cfg : StoreConfig St) (s : StoreSt St)
    (a : ActionM St) (e : Err) (h : InvS s) :
    InvS (processWrapsError cfg s a e).1 := by
  intro r hr
  rw [processWrapsError_actionsInProgress] at hr
  obtain ⟨h1, h2⟩ := h r hr
  obtain ⟨k1, k2⟩ := processWrapsError_status_kept cfg s a e r.id
  rw [k1, k2]
  exact ⟨h1, h2⟩

theorem inProg_changeStatus (s : StoreSt St) (i : Nat) (p : StatusParams)
    (j : Nat) : inProg (changeStatus s i p) j = inProg s j := by
  simp [inProg, changeStatus]

theorem inProg_writeRetry (s : StoreSt St) (a : ActionM St) (r : RetryOptions)
    (j : Nat) : inProg (writeRetry s a r) j = inProg s j := by
  simp [inProg, writeRetry]

theorem InvS_writeRetry (s : StoreSt St) (a : ActionM St) (r : RetryOptions)
    (h : InvS s) : InvS (writeRetry s a r) :=
  InvS_mk _ s (by simp [writeRetry]) (by simp [writeRetry]) h

theorem injectStore_actionsInProgress (s : StoreSt St) (a : ActionM St) :
    (injectStore s a).actionsInProgress = s.actionsInProgress := by
  unfold injectStore
  (repeat' split) <;> simp

theorem inProg_processWrapsError (cfg : StoreConfig St) (s : StoreSt St)
    (a : ActionM St) (e : Err) (j : Nat) :
    inProg (processWrapsError cfg s a e).1 j = inProg s j := by
  simp [inProg, processWrapsError_actionsInProgress]

/-- Deleting an id from the in-progress set really removes it. -/
theorem inProg_refDelete (l : List ARef) (i : Nat) :
    ((refDelete l i).1.any (fun r => r.id == i)) = false := by
  simp only [refDelete, List.any_eq_false, List.mem_filter]
  intro x hx
  obtain ⟨-, h2⟩ := hx
  simp only [decide_eq_true_eq] at h2
  simp [h2]

/-- Adding an action to the in-progress set makes it a member. -/
theorem inProg_refAdd (l : List ARef) (r : ARef) :
    ((refAdd l r).any (fun x => x.id == r.id)) = true := by
  unfold refAdd
  split
  · assumption
  · simp

/-- `_calculateIsWaitingIsFailed` logs exactly the add-to-in-progress
event. -/
theorem calculateIsWaitingIsFailed_trace (s : StoreSt St) (a : ActionM St) :
    (calculateIsWaitingIsFailed s a).2 = [Ev.addInProgress a.ref.id] := by
  unfold calculateIsWaitingIsFailed
  by_cases h1 : a.ref.typeId ∈ s.actionsWeCanCheckFailed <;>
    by_cases h2 : (mapDelete s.failedActions a.ref.typeId).2 = true <;>
    simp [h1, h2, forceUiUpdate] <;> (repeat' split) <;> simp [forceUiUpdate]

/-- `_runFromStart` always runs `before()`. -/
theorem runFromStart_beforeRun (fuel : Nat) (s : StoreSt St) (a : ActionM St)
    (b : Bool) :
    [Ev.beforeRun a.ref.id].Sublist (runFromStart fuel s a b).2.1 := by
  rw [List.singleton_sublist]
  unfold runFromStart
  (repeat' split) <;> simp <;> (repeat' split) <;> simp

/-- What claim C1 requires of the part of a dispatch that runs after the
action entered the in-progress set, once it is certain to complete: all
logged snapshots satisfy the invariant, the invariant holds at the end,
the action is never added again, it is removed exactly once, and the
removal comes either right after the one applied state change (and then
before `after()` runs) or else after `after()` ran. -/
def TailOk (i : Nat) (s' : StoreSt St) (tr : List Ev) : Prop :=
  (∀ ev ∈ tr, SnapOk ev) ∧ InvS s' ∧
  tr.count (Ev.addInProgress i) = 0 ∧
  tr.count (Ev.removeInProgress i) = 1 ∧
  ((tr.count (Ev.stateApplied i) = 1 ∧
      [Ev.stateApplied i, Ev.removeInProgress i, Ev.afterRun i].Sublist tr) ∨
   (tr.count (Ev.stateApplied i) = 0 ∧
      [Ev.afterRun i, Ev.removeInProgress i].Sublist tr))

/-- What claim C1 requires of the trace left behind while the action's
lifecycle is still pending (or stuck): invariant-respecting snapshots,
an invariant-respecting store, and no add/remove/apply events. -/
def PendOk (i : Nat) (s' : StoreSt St) (tr : List Ev) : Prop :=
  (∀ ev ∈ tr, SnapOk ev) ∧ InvS s' ∧
  tr.count (Ev.addInProgress i) = 0 ∧
  tr.count (Ev.removeInProgress i) = 0 ∧
  tr.count (Ev.stateApplied i) = 0

/-- `TailOk` survives prepending events that mention none of the three
membership events. -/
theorem TailOk_extend (i : Nat) (pre tr : List Ev) (s' : StoreSt St)
    (h : TailOk i s' tr)
    (h1 : ∀ ev ∈ pre, SnapOk ev)
    (h2 : pre.count (Ev.addInProgress i) = 0)
    (h3 : pre.count (Ev.removeInProgress i) = 0)
    (h4 : pre.count (Ev.stateApplied i) = 0) :
    TailOk i s' (pre ++ tr) := by
  obtain ⟨ha, hb, hc, hd, he⟩ := h
  refine ⟨?_, hb, ?_, ?_, ?_⟩
  · intro ev hev
    rcases List.mem_append.mp hev with hev | hev
    · exact h1 ev hev
    · exact ha ev hev
  · simp [List.count_append, h2, hc]
  · simp [List.count_append, h3, hd]
  · rcases he with ⟨hs, hsub⟩ | ⟨hs, hsub⟩
    · exact Or.inl ⟨by simp [List.count_append, h4, hs],
        hsub.trans (List.sublist_append_right _ _)⟩
    · exact Or.inr ⟨by simp [List.count_append, h4, hs],
        hsub.trans (List.sublist_append_right _ _)⟩


/-- The catch-plus-finally path satisfies the C1 tail contract when the
action is still in the in-progress set. -/
theorem errThenFinally_tailOk (cfg : StoreConfig St) (s : StoreSt St)
    (a : ActionM St) (e : Err) (hInv : InvS s)
    (hmem : inProg s a.ref.id = true) :
    TailOk a.ref.id (errThenFinally cfg s a e).1
      (errThenFinally cfg s a e).2.1 := by
  have hpe := processWrapsError_trace cfg s a e
  have hIpe := InvS_processWrapsError cfg s a e hInv
  have hprog : inProg (processWrapsError cfg s a e).1 a.ref.id = true := by
    rw [inProg_processWrapsError]; exact hmem
  obtain ⟨hsnap, hInvF, hadd, hsa, hmem1, _⟩ :=
    processWrapsFinally_full (processWrapsError cfg s a e).1 a hIpe
  obtain ⟨hrm, hsub⟩ := hmem1 hprog
  simp only [errThenFinally]
  refine ⟨?_, hInvF, ?_, ?_, Or.inr ⟨?_, ?_⟩⟩
  · intro ev hev
    rcases List.mem_append.mp hev with hev | hev
    · rw [hpe] at hev
      simp only [List.mem_singleton] at hev
      subst hev
      exact SnapOk_mkSnap _ (InvS_changeStatus s a.ref.id _ (Or.inl rfl) rfl hInv)
    · exact hsnap ev hev
  · rw [List.count_append, hpe, hadd]
    simp [mkSnap]
  · rw [List.count_append, hpe, hrm]
    simp [mkSnap]
  · rw [List.count_append, hpe, hsa]
    simp [mkSnap]
  · exact hsub.trans (List.sublist_append_right _ _)

/-- `_registerState` on an unchanged state is a no-op with an empty
trace. -/
theorem registerState_noop (s : StoreSt St) (a : ActionM St) (st' : St)
    (h : st' = s.state) : registerState s a st' = (s, []) := by
  simp [registerState, h]

/-- Everything claim C1 needs of `_registerState` on a real state
change while the action is in the in-progress set: invariant-respecting
snapshots and result, no add and no `after()`, and exactly one removal,
which comes right after the one applied-state event. -/
theorem registerState_full (s : StoreSt St) (a : ActionM St) (st' : St)
    (hne : st' ≠ s.state) (hmem : inProg s a.ref.id = true) (hInv : InvS s) :
    (∀ ev ∈ (registerState s a st').2, SnapOk ev) ∧
    InvS (registerState s a st').1 ∧
    (registerState s a st').2.count (Ev.addInProgress a.ref.id) = 0 ∧
    (registerState s a st').2.count (Ev.removeInProgress a.ref.id) = 1 ∧
    (registerState s a st').2.count (Ev.stateApplied a.ref.id) = 1 ∧
    [Ev.stateApplied a.ref.id, Ev.removeInProgress a.ref.id].Sublist
      (registerState s a st').2 ∧
    inProg (registerState s a st').1 a.ref.id = false := by
  have hd2 : (refDelete s.actionsInProgress a.ref.id).2 = true := by
    simpa [refDelete, inProg] using hmem
  have hI1 : InvS ({ s with state := st' } : StoreSt St) :=
    InvS_mk _ s rfl rfl hInv
  have hI2 : InvS ({ { s with state := st' } with actionsInProgress :=
      (refDelete ({ s with state := st' } : StoreSt St).actionsInProgress
        a.ref.id).1 } : StoreSt St) :=
    InvS_delete _ a.ref.id hI1
  have hI3 := InvS_checkAllActionConditions _ a.ref hI2
  have hI4 := InvS_forceUiUpdate _ hI3
  unfold registerState
  rw [if_pos hne]
  simp only [hd2, if_true]
  refine ⟨?_, ?_, ?_, ?_, ?_, ?_, ?_⟩
  · intro ev hev
    simp only [List.mem_append, List.mem_cons, List.mem_singleton,
      List.not_mem_nil, or_false, or_assoc] at hev
    rcases hev with h | h | h | h | h <;> (try subst h) <;>
      first
        | exact SnapOk_mkSnap _ hI1
        | exact SnapOk_mkSnap _ hI3
        | exact SnapOk_mkSnap _ (InvS_mk _ _ rfl rfl hI4)
        | trivial
  · exact InvS_mk _ _ rfl rfl hI4
  · simp [List.count_append, List.count_cons, mkSnap]
  · simp [List.count_append, List.count_cons, mkSnap]
  · simp [List.count_append, List.count_cons, mkSnap]
  · refine List.Sublist.cons₂ _ (List.Sublist.cons _
      (List.Sublist.cons₂ _ (List.nil_sublist _)))
  · simp only [inProg, forceUiUpdate, checkAllActionConditions_actionsInProgress]
    exact inProg_refDelete _ _


/-- When processing a resolved reducer value throws, nothing happened:
store unchanged, no events. -/
theorem applyResolvedReduce_err (s : StoreSt St) (a : ActionM St)
    (ar : AsyncRes St) (chk : Bool) (e : Err) :
    (applyResolvedReduce s a ar chk).2.2 = some e →
    (applyResolvedReduce s a ar chk).1 = s ∧
    (applyResolvedReduce s a ar chk).2.1 = [] := by
  unfold applyResolvedReduce
  (repeat' split) <;> simp_all

/-- When processing a resolved reducer value succeeds, either the state
was applied and the action was removed early (in that order), or
nothing membership-related happened and the action is still in the
set. -/
theorem applyResolvedReduce_ok (s : StoreSt St) (a : ActionM St)
    (ar : AsyncRes St) (chk : Bool)
    (hmem : inProg s a.ref.id = true) (hInv : InvS s) :
    (applyResolvedReduce s a ar chk).2.2 = none →
    (∀ ev ∈ (applyResolvedReduce s a ar chk).2.1, SnapOk ev) ∧
    InvS (applyResolvedReduce s a ar chk).1 ∧
    (applyResolvedReduce s a ar chk).2.1.count (Ev.addInProgress a.ref.id)
      = 0 ∧
    (((applyResolvedReduce s a ar chk).2.1.count
        (Ev.removeInProgress a.ref.id) = 1 ∧
      (applyResolvedReduce s a ar chk).2.1.count
        (Ev.stateApplied a.ref.id) = 1 ∧
      [Ev.stateApplied a.ref.id, Ev.removeInProgress a.ref.id].Sublist
        (applyResolvedReduce s a ar chk).2.1 ∧
      inProg (applyResolvedReduce s a ar chk).1 a.ref.id = false) ∨
     ((applyResolvedReduce s a ar chk).2.1.count
        (Ev.removeInProgress a.ref.id) = 0 ∧
      (applyResolvedReduce s a ar chk).2.1.count
        (Ev.stateApplied a.ref.id) = 0 ∧
      inProg (applyResolvedReduce s a ar chk).1 a.ref.id = true)) := by
  intro h
  revert h
  rcases ar with _ | f | st0
  · simp only [applyResolvedReduce]
    intro _
    exact ⟨by simp, hInv, by simp, Or.inr ⟨by simp, by simp, hmem⟩⟩
  · simp only [applyResolvedReduce]
    rcases hf : f s.state with _ | st
    · simp only [hf]
      intro _
      refine ⟨?_, hInv, by simp [mkSnap], Or.inr
        ⟨by simp [mkSnap], by simp [mkSnap], hmem⟩⟩
      intro ev hev
      simp only [List.mem_singleton] at hev
      subst hev
      exact SnapOk_mkSnap s hInv
    · simp only [hf]
      split
      · intro _
        refine ⟨?_, hInv, by simp [mkSnap], Or.inr
          ⟨by simp [mkSnap], by simp [mkSnap], hmem⟩⟩
        intro ev hev
        simp only [List.mem_append, List.mem_singleton, or_self] at hev
        subst hev
        exact SnapOk_mkSnap s hInv
      · by_cases hst : st = s.state
        · rw [registerState_noop s a st hst]
          intro _
          refine ⟨?_, hInv, by simp [mkSnap], Or.inr
            ⟨by simp [mkSnap], by simp [mkSnap], hmem⟩⟩
          intro ev hev
          simp only [List.append_nil, List.mem_append, List.mem_singleton,
            or_self] at hev
          subst hev
          exact SnapOk_mkSnap s hInv
        · intro _
          obtain ⟨g1, g2, g3, g4, g5, g6, g7⟩ :=
            registerState_full s a st hst hmem hInv
          refine ⟨?_, g2, ?_, Or.inl ⟨?_, ?_, ?_, g7⟩⟩
          · intro ev hev
            rcases List.mem_append.mp hev with hev | hev
            · simp only [List.mem_append, List.mem_singleton, or_self] at hev
              subst hev
              exact SnapOk_mkSnap s hInv
            · exact g1 ev hev
          · simp [List.count_append, mkSnap, g3]
          · simp [List.count_append, mkSnap, g4]
          · simp [List.count_append, mkSnap, g5]
          · exact g6.trans (List.sublist_append_right _ _)
  · simp only [applyResolvedReduce]
    split
    · intro _
      exact ⟨by simp, hInv, by simp, Or.inr ⟨by simp, by simp, hmem⟩⟩
    · split <;> (intro h; simp at h)

/-- Site shape of claim C1's tail contract when the resolved-value
processing threw: the catch-plus-finally runs on the untouched store. -/
theorem applyTail_err (cfg : StoreConfig St) (s : StoreSt St) (a : ActionM St)
    (ar : AsyncRes St) (chk : Bool) (e : Err) (hInv : InvS s)
    (hmem : inProg s a.ref.id = true)
    (h : (applyResolvedReduce s a ar chk).2.2 = some e) :
    TailOk a.ref.id
      (errThenFinally cfg (applyResolvedReduce s a ar chk).1 a e).1
      ((applyResolvedReduce s a ar chk).2.1 ++
        (errThenFinally cfg (applyResolvedReduce s a ar chk).1 a e).2.1) := by
  obtain ⟨h1, h2⟩ := applyResolvedReduce_err s a ar chk e h
  rw [h1, h2]
  simp only [List.nil_append]
  exact errThenFinally_tailOk cfg s a e hInv hmem

/-- Site shape of claim C1's tail contract when the resolved-value
processing succeeded: the finally block completes the lifecycle. -/
theorem applyTail_ok (s : StoreSt St) (a : ActionM St)
    (ar : AsyncRes St) (chk : Bool) (hInv : InvS s)
    (hmem : inProg s a.ref.id = true)
    (h : (applyResolvedReduce s a ar chk).2.2 = none) :
    TailOk a.ref.id
      (processWrapsFinally (applyResolvedReduce s a ar chk).1 a).1
      ((applyResolvedReduce s a ar chk).2.1 ++
        (processWrapsFinally (applyResolvedReduce s a ar chk).1 a).2) := by
  obtain ⟨g1, g2, g3, gd⟩ := applyResolvedReduce_ok s a ar chk hmem hInv h
  obtain ⟨p1, p2, p3, p4, p5, p6⟩ :=
    processWrapsFinally_full (applyResolvedReduce s a ar chk).1 a g2
  rcases gd with ⟨r1, r2, r3, r4⟩ | ⟨r1, r2, r3⟩
  · obtain ⟨q1, q2⟩ := p6 r4
    refine ⟨?_, p2, ?_, ?_, Or.inl ⟨?_, ?_⟩⟩
    · intro ev hev
      rcases List.mem_append.mp hev with hev | hev
      · exact g1 ev hev
      · exact p1 ev hev
    · simp [List.count_append, g3, p3]
    · simp [List.count_append, r1, q1]
    · simp [List.count_append, r2, p4]
    · simpa using List.Sublist.append r3 q2
  · obtain ⟨q1, q2⟩ := p5 r3
    refine ⟨?_, p2, ?_, ?_, Or.inr ⟨?_, ?_⟩⟩
    · intro ev hev
      rcases List.mem_append.mp hev with hev | hev
      · exact g1 ev hev
      · exact p1 ev hev
    · simp [List.count_append, g3, p3]
    · simp [List.count_append, r1, q1]
    · simp [List.count_append, r2, p4]
    · exact q2.trans (List.sublist_append_right _ _)


/-- `_processWrapsFinally` alone satisfies the C1 tail contract when the
action is still in the in-progress set. -/
theorem pwf_tailOk (s : StoreSt St) (a : ActionM St) (hInv : InvS s)
    (hmem : inProg s a.ref.id = true) :
    TailOk a.ref.id (processWrapsFinally s a).1 (processWrapsFinally s a).2 := by
  obtain ⟨p1, p2, p3, p4, p5, _⟩ := processWrapsFinally_full s a hInv
  obtain ⟨q1, q2⟩ := p5 hmem
  exact ⟨p1, p2, p3, q1, Or.inr ⟨p4, q2⟩⟩

/-- Claim C1 for the 5.x continuation `_runAsyncReduceOnwards`: a stuck
promise leaves the membership untouched; otherwise the tail contract
holds. -/
theorem runAsyncReduceOnwards_full (cfg : StoreConfig St) (s : StoreSt St)
    (a : ActionM St) (pr : Option (RetryRunResult St))
    (hInv : InvS s) (hmem : inProg s a.ref.id = true) :
    ((runAsyncReduceOnwards cfg s a pr).2.2 = .stuck →
      PendOk a.ref.id (runAsyncReduceOnwards cfg s a pr).1
        (runAsyncReduceOnwards cfg s a pr).2.1) ∧
    ((runAsyncReduceOnwards cfg s a pr).2.2 ≠ .stuck →
      TailOk a.ref.id (runAsyncReduceOnwards cfg s a pr).1
        (runAsyncReduceOnwards cfg s a pr).2.1) := by
  rcases pr with _ | res
  · simp only [runAsyncReduceOnwards]
    constructor
    · intro _
      exact ⟨by simp, hInv, by simp, by simp, by simp⟩
    · intro hne
      exact absurd rfl hne
  · simp only [runAsyncReduceOnwards]
    have hI1 : InvS (writeRetry s a res.retryFinal) := InvS_writeRetry _ _ _ hInv
    have hm1 : inProg (writeRetry s a res.retryFinal) a.ref.id = true := by
      rw [inProg_writeRetry]; exact hmem
    rcases hout : res.outcome with e | ar
    · simp only [hout]
      constructor
      · intro hstuck
        simp [errThenFinally] at hstuck
      · intro _
        exact errThenFinally_tailOk cfg (writeRetry s a res.retryFinal) a e
          hI1 hm1
    · simp only [hout]
      have hI2 : InvS (changeStatus (writeRetry s a res.retryFinal) a.ref.id
          { hasFinishedMethodReduce := some true }) :=
        InvS_changeStatus _ _ _ (Or.inl rfl) rfl hI1
      have hm2 : inProg (changeStatus (writeRetry s a res.retryFinal) a.ref.id
          { hasFinishedMethodReduce := some true }) a.ref.id = true := by
        rw [inProg_changeStatus]; exact hm1
      rcases hap : (applyResolvedReduce
          (changeStatus (writeRetry s a res.retryFinal) a.ref.id
            { hasFinishedMethodReduce := some true }) a ar false).2.2
        with _ | e
      · simp only [hap]
        constructor
        · intro hstuck
          simp at hstuck
        · intro _
          exact applyTail_ok _ a ar false hI2 hm2 hap
      · simp only [hap]
        constructor
        · intro hstuck
          simp [errThenFinally] at hstuck
        · intro _
          exact applyTail_err cfg _ a ar false e hI2 hm2 hap


/-- Claim C1 for the 2.x continuation `_runAsyncBeforeOnwards`: a stuck
retry chain leaves the membership untouched; otherwise the tail
contract holds. -/
theorem runAsyncBeforeOnwards_full (cfg : StoreConfig St) (fuel : Nat)
    (s : StoreSt St) (a : ActionM St) (r : Except Err Unit)
    (hInv : InvS s) (hmem : inProg s a.ref.id = true) :
    ((runAsyncBeforeOnwards cfg fuel s a r).2.2 = .stuck →
      PendOk a.ref.id (runAsyncBeforeOnwards cfg fuel s a r).1
        (runAsyncBeforeOnwards cfg fuel s a r).2.1) ∧
    ((runAsyncBeforeOnwards cfg fuel s a r).2.2 ≠ .stuck →
      TailOk a.ref.id (runAsyncBeforeOnwards cfg fuel s a r).1
        (runAsyncBeforeOnwards cfg fuel s a r).2.1) := by
  rcases r with e | u
  · simp only [runAsyncBeforeOnwards]
    constructor
    · intro hstuck
      simp [errThenFinally] at hstuck
    · intro _
      exact errThenFinally_tailOk cfg s a e hInv hmem
  · simp only [runAsyncBeforeOnwards]
    have hI1 : InvS (changeStatus s a.ref.id
        { hasFinishedMethodBefore := some true }) :=
      InvS_changeStatus _ _ _ (Or.inl rfl) rfl hInv
    have hm1 : inProg (changeStatus s a.ref.id
        { hasFinishedMethodBefore := some true }) a.ref.id = true := by
      rw [inProg_changeStatus]; exact hmem
    have hpre : ∀ ev ∈ [mkSnap (changeStatus s a.ref.id
        { hasFinishedMethodBefore := some true }), Ev.reduceRun a.ref.id],
        SnapOk ev := by
      intro ev hev
      simp only [List.mem_cons, List.not_mem_nil, or_false] at hev
      rcases hev with h | h <;> (try subst h) <;>
        first
          | exact SnapOk_mkSnap _ hI1
          | trivial
    by_cases hro : ifRetryIsOn (changeStatus s a.ref.id
        { hasFinishedMethodBefore := some true }) a = true
    · rw [if_pos hro]
      rcases hrl : retryLoop a.reduce fuel ((changeStatus s a.ref.id
          { hasFinishedMethodBefore := some true }).retryOf a.ref.id)
        with _ | res
      · simp only [hrl]
        constructor
        · intro _
          exact ⟨hpre, hI1, by simp [mkSnap], by simp [mkSnap],
            by simp [mkSnap]⟩
        · intro hne
          exact absurd rfl hne
      · simp only [hrl]
        have hI2 : InvS (writeRetry (changeStatus s a.ref.id
            { hasFinishedMethodBefore := some true }) a res.retryFinal) :=
          InvS_writeRetry _ _ _ hI1
        have hm2 : inProg (writeRetry (changeStatus s a.ref.id
            { hasFinishedMethodBefore := some true }) a res.retryFinal)
            a.ref.id = true := by
          rw [inProg_writeRetry]; exact hm1
        rcases hout : res.outcome with e | ar
        · simp only [hout]
          constructor
          · intro hstuck
            simp [errThenFinally] at hstuck
          · intro _
            exact TailOk_extend _ _ _ _
              (errThenFinally_tailOk cfg _ a e hI2 hm2) hpre
              (by simp [mkSnap]) (by simp [mkSnap]) (by simp [mkSnap])
        · simp only [hout]
          have hI3 : InvS (changeStatus (writeRetry (changeStatus s a.ref.id
              { hasFinishedMethodBefore := some true }) a res.retryFinal)
              a.ref.id { hasFinishedMethodReduce := some true }) :=
            InvS_changeStatus _ _ _ (Or.inl rfl) rfl hI2
          have hm3 : inProg (changeStatus (writeRetry (changeStatus s a.ref.id
              { hasFinishedMethodBefore := some true }) a res.retryFinal)
              a.ref.id { hasFinishedMethodReduce := some true })
              a.ref.id = true := by
            rw [inProg_changeStatus]; exact hm2
          rcases hap : (applyResolvedReduce
              (changeStatus (writeRetry (changeStatus s a.ref.id
                { hasFinishedMethodBefore := some true }) a res.retryFinal)
                a.ref.id { hasFinishedMethodReduce := some true })
              a ar true).2.2 with _ | e
          · simp only [hap]
            constructor
            · intro hstuck
              simp at hstuck
            · intro _
              rw [List.append_assoc]
              exact TailOk_extend _ _ _ _
                (applyTail_ok _ a ar true hI3 hm3 hap) hpre
                (by simp [mkSnap]) (by simp [mkSnap]) (by simp [mkSnap])
          · simp only [hap]
            constructor
            · intro hstuck
              simp [errThenFinally] at hstuck
            · intro _
              rw [List.append_assoc]
              exact TailOk_extend _ _ _ _
                (applyTail_err cfg _ a ar true e hI3 hm3 hap) hpre
                (by simp [mkSnap]) (by simp [mkSnap]) (by simp [mkSnap])
    · have hro2 : ifRetryIsOn (changeStatus s a.ref.id
          { hasFinishedMethodBefore := some true }) a = false := by
        simpa using hro
      simp only [hro2, Bool.false_eq_true, if_false]
      have hI4 : InvS (changeStatus (changeStatus s a.ref.id
          { hasFinishedMethodBefore := some true }) a.ref.id
          { hasFinishedMethodReduce := some true }) :=
        InvS_changeStatus _ _ _ (Or.inl rfl) rfl hI1
      have hm4 : inProg (changeStatus (changeStatus s a.ref.id
          { hasFinishedMethodBefore := some true }) a.ref.id
          { hasFinishedMethodReduce := some true }) a.ref.id = true := by
        rw [inProg_changeStatus]; exact hm1
      rcases hred : a.reduce 0 with _ | st | pr | e
      · simp only [hred]
        constructor
        · intro hstuck
          simp at hstuck
        · intro _
          exact TailOk_extend _ _ _ _ (pwf_tailOk _ a hI4 hm4) hpre
            (by simp [mkSnap]) (by simp [mkSnap]) (by simp [mkSnap])
      · simp only [hred]
        by_cases hsame : st = (changeStatus s a.ref.id
            { hasFinishedMethodBefore := some true }).state
        · rw [if_pos hsame]
          constructor
          · intro hstuck
            simp at hstuck
          · intro _
            exact TailOk_extend _ _ _ _ (pwf_tailOk _ a hI4 hm4) hpre
              (by simp [mkSnap]) (by simp [mkSnap]) (by simp [mkSnap])
        · rw [if_neg hsame]
          have hpre2 : ∀ ev ∈ [mkSnap (changeStatus s a.ref.id
              { hasFinishedMethodBefore := some true }), Ev.reduceRun a.ref.id]
              ++ [mkSnap (changeStatus (changeStatus s a.ref.id
                { hasFinishedMethodBefore := some true }) a.ref.id
                { hasFinishedMethodReduce := some true })], SnapOk ev := by
            intro ev hev
            rcases List.mem_append.mp hev with hev | hev
            · exact hpre ev hev
            · simp only [List.mem_singleton] at hev
              subst hev
              exact SnapOk_mkSnap _ hI4
          by_cases hab : a.abortReduce st = true
          · rw [if_pos hab]
            have hI5 : InvS (changeStatus (changeStatus (changeStatus s
                a.ref.id { hasFinishedMethodBefore := some true }) a.ref.id
                { hasFinishedMethodReduce := some true }) a.ref.id
                { hasFinishedMethodReduce := some true }) :=
              InvS_changeStatus _ _ _ (Or.inl rfl) rfl hI4
            have hm5 : inProg (changeStatus (changeStatus (changeStatus s
                a.ref.id { hasFinishedMethodBefore := some true }) a.ref.id
                { hasFinishedMethodReduce := some true }) a.ref.id
                { hasFinishedMethodReduce := some true }) a.ref.id = true := by
              rw [inProg_changeStatus]; exact hm4
            constructor
            · intro hstuck
              simp at hstuck
            · intro _
              exact TailOk_extend _ _ _ _ (pwf_tailOk _ a hI5 hm5) hpre2
                (by simp [mkSnap]) (by simp [mkSnap]) (by simp [mkSnap])
          · rw [if_neg hab]
            have hne4 : st ≠ (changeStatus (changeStatus s a.ref.id
                { hasFinishedMethodBefore := some true }) a.ref.id
                { hasFinishedMethodReduce := some true }).state := by
              rw [changeStatus_state]
              exact hsame
            obtain ⟨g1, g2, g3, g4, g5, g6, g7⟩ :=
              registerState_full _ a st hne4 hm4 hI4
            obtain ⟨p1, p2, p3, p4, p5, p6⟩ := processWrapsFinally_full _ a g2
            obtain ⟨q1, q2⟩ := p6 g7
            constructor
            · intro hstuck
              simp at hstuck
            · intro _
              rw [List.append_assoc]
              refine TailOk_extend _ _ _ _ ?_ hpre2
                (by simp [mkSnap]) (by simp [mkSnap]) (by simp [mkSnap])
              refine ⟨?_, p2, ?_, ?_, Or.inl ⟨?_, ?_⟩⟩
              · intro ev hev
                rcases List.mem_append.mp hev with hev | hev
                · exact g1 ev hev
                · exact p1 ev hev
              · simp [List.count_append, g3, p3]
              · simp [List.count_append, g4, q1]
              · simp [List.count_append, g5, p4]
              · simpa using List.Sublist.append g6 q2
      · simp only [hred]
        rcases pr with e | ar
        · constructor
          · intro hstuck
            simp [errThenFinally] at hstuck
          · intro _
            exact TailOk_extend _ _ _ _
              (errThenFinally_tailOk cfg _ a e hI1 hm1) hpre
              (by simp [mkSnap]) (by simp [mkSnap]) (by simp [mkSnap])
        · rcases hap : (applyResolvedReduce (changeStatus (changeStatus s
              a.ref.id { hasFinishedMethodBefore := some true }) a.ref.id
              { hasFinishedMethodReduce := some true }) a ar true).2.2
            with _ | e
          · simp only [hap]
            constructor
            · intro hstuck
              simp at hstuck
            · intro _
              rw [List.append_assoc]
              exact TailOk_extend _ _ _ _
                (applyTail_ok _ a ar true hI4 hm4 hap) hpre
                (by simp [mkSnap]) (by simp [mkSnap]) (by simp [mkSnap])
          · simp only [hap]
            constructor
            · intro hstuck
              simp [errThenFinally] at hstuck
            · intro _
              rw [List.append_assoc]
              exact TailOk_extend _ _ _ _
                (applyTail_err cfg _ a ar true e hI4 hm4 hap) hpre
                (by simp [mkSnap]) (by simp [mkSnap]) (by simp [mkSnap])
      · simp only [hred]
        constructor
        · intro hstuck
          simp [errThenFinally] at hstuck
        · intro _
          exact TailOk_extend _ _ _ _
            (errThenFinally_tailOk cfg _ a e hI1 hm1) hpre
            (by simp [mkSnap]) (by simp [mkSnap]) (by simp [mkSnap])


/-- Claim C1 for the synchronous part of a dispatch
(`_wraps(_runFromStart)` with `mustBeSync = false`): if the call
finished (`done`), the tail contract holds; if it left pending
asynchronous work, no membership event was logged yet and the action is
still in the in-progress set. -/
theorem wraps_runFromStart_full (cfg : StoreConfig St) (fuel : Nat)
    (s : StoreSt St) (a : ActionM St) (hInv : InvS s)
    (hmem : inProg s a.ref.id = true) :
    (∀ o, (wraps cfg (runFromStart fuel s a false).1 a
        (runFromStart fuel s a false).2.2).2.2 = .done o →
      TailOk a.ref.id
        (wraps cfg (runFromStart fuel s a false).1 a
          (runFromStart fuel s a false).2.2).1
        ((runFromStart fuel s a false).2.1 ++
          (wraps cfg (runFromStart fuel s a false).1 a
            (runFromStart fuel s a false).2.2).2.1)) ∧
    (∀ p, (wraps cfg (runFromStart fuel s a false).1 a
        (runFromStart fuel s a false).2.2).2.2 = .pendingBefore p →
      PendOk a.ref.id
        (wraps cfg (runFromStart fuel s a false).1 a
          (runFromStart fuel s a false).2.2).1
        ((runFromStart fuel s a false).2.1 ++
          (wraps cfg (runFromStart fuel s a false).1 a
            (runFromStart fuel s a false).2.2).2.1) ∧
      inProg (wraps cfg (runFromStart fuel s a false).1 a
        (runFromStart fuel s a false).2.2).1 a.ref.id = true) ∧
    (∀ p, (wraps cfg (runFromStart fuel s a false).1 a
        (runFromStart fuel s a false).2.2).2.2 = .pendingReduce p →
      PendOk a.ref.id
        (wraps cfg (runFromStart fuel s a false).1 a
          (runFromStart fuel s a false).2.2).1
        ((runFromStart fuel s a false).2.1 ++
          (wraps cfg (runFromStart fuel s a false).1 a
            (runFromStart fuel s a false).2.2).2.1) ∧
      inProg (wraps cfg (runFromStart fuel s a false).1 a
        (runFromStart fuel s a false).2.2).1 a.ref.id = true) := by
  have hpre0 : ∀ ev ∈ [mkSnap s, Ev.beforeRun a.ref.id], SnapOk ev := by
    intro ev hev
    simp only [List.mem_cons, List.not_mem_nil, or_false] at hev
    rcases hev with h | h <;> (try subst h) <;>
      first
        | exact SnapOk_mkSnap _ hInv
        | trivial
  rcases hbef : a.before with _ | e | rb
  · -- before() returned normally
    have hI1 : InvS (changeStatus s a.ref.id
        { hasFinishedMethodBefore := some true }) :=
      InvS_changeStatus _ _ _ (Or.inl rfl) rfl hInv
    have hm1 : inProg (changeStatus s a.ref.id
        { hasFinishedMethodBefore := some true }) a.ref.id = true := by
      rw [inProg_changeStatus]; exact hmem
    have hpre1 : ∀ ev ∈ [mkSnap s, Ev.beforeRun a.ref.id] ++
        [mkSnap (changeStatus s a.ref.id
          { hasFinishedMethodBefore := some true }), Ev.reduceRun a.ref.id],
        SnapOk ev := by
      intro ev hev
      rcases List.mem_append.mp hev with hev | hev
      · exact hpre0 ev hev
      · simp only [List.mem_cons, List.not_mem_nil, or_false] at hev
        rcases hev with h | h <;> (try subst h) <;>
          first
            | exact SnapOk_mkSnap _ hI1
            | trivial
    simp only [runFromStart, hbef, Bool.false_eq_true, if_false]
    by_cases hro : ifRetryIsOn (changeStatus s a.ref.id
        { hasFinishedMethodBefore := some true }) a = true
    · rw [if_pos hro]
      simp only [wraps]
      refine ⟨?_, ?_, ?_⟩
      · intro o ho
        simp at ho
      · intro p hp
        simp at hp
      · intro p _
        refine ⟨⟨?_, hI1, by simp [mkSnap], by simp [mkSnap],
          by simp [mkSnap]⟩, hm1⟩
        intro ev hev
        rw [List.append_nil] at hev
        exact hpre1 ev hev
    · have hro2 : ifRetryIsOn (changeStatus s a.ref.id
          { hasFinishedMethodBefore := some true }) a = false := by
        simpa using hro
      simp only [hro2, Bool.false_eq_true, if_false]
      have hI2 : InvS (changeStatus (changeStatus s a.ref.id
          { hasFinishedMethodBefore := some true }) a.ref.id
          { hasFinishedMethodReduce := some true }) :=
        InvS_changeStatus _ _ _ (Or.inl rfl) rfl hI1
      have hm2 : inProg (changeStatus (changeStatus s a.ref.id
          { hasFinishedMethodBefore := some true }) a.ref.id
          { hasFinishedMethodReduce := some true }) a.ref.id = true := by
        rw [inProg_changeStatus]; exact hm1
      rcases hred : a.reduce 0 with _ | st | pr | e
      · simp only [hred, wraps]
        refine ⟨?_, ?_, ?_⟩
        · intro o _
          exact TailOk_extend _ _ _ _ (pwf_tailOk _ a hI2 hm2) hpre1
            (by simp [mkSnap]) (by simp [mkSnap]) (by simp [mkSnap])
        · intro p hp
          simp at hp
        · intro p hp
          simp at hp
      · simp only [hred]
        by_cases hsame : st = (changeStatus s a.ref.id
            { hasFinishedMethodBefore := some true }).state
        · rw [if_pos hsame]
          simp only [wraps]
          refine ⟨?_, ?_, ?_⟩
          · intro o _
            exact TailOk_extend _ _ _ _ (pwf_tailOk _ a hI2 hm2) hpre1
              (by simp [mkSnap]) (by simp [mkSnap]) (by simp [mkSnap])
          · intro p hp
            simp at hp
          · intro p hp
            simp at hp
        · rw [if_neg hsame]
          have hpre2 : ∀ ev ∈ ([mkSnap s, Ev.beforeRun a.ref.id] ++
              [mkSnap (changeStatus s a.ref.id
                { hasFinishedMethodBefore := some true }),
                Ev.reduceRun a.ref.id]) ++
              [mkSnap (changeStatus (changeStatus s a.ref.id
                { hasFinishedMethodBefore := some true }) a.ref.id
                { hasFinishedMethodReduce := some true })], SnapOk ev := by
            intro ev hev
            rcases List.mem_append.mp hev with hev | hev
            · exact hpre1 ev hev
            · simp only [List.mem_singleton] at hev
              subst hev
              exact SnapOk_mkSnap _ hI2
          by_cases hab : a.abortReduce st = true
          · rw [if_pos hab]
            simp only [wraps]
            have hI3 : InvS (changeStatus (changeStatus (changeStatus s
                a.ref.id { hasFinishedMethodBefore := some true }) a.ref.id
                { hasFinishedMethodReduce := some true }) a.ref.id
                { hasFinishedMethodReduce := some true }) :=
              InvS_changeStatus _ _ _ (Or.inl rfl) rfl hI2
            have hm3 : inProg (changeStatus (changeStatus (changeStatus s
                a.ref.id { hasFinishedMethodBefore := some true }) a.ref.id
                { hasFinishedMethodReduce := some true }) a.ref.id
                { hasFinishedMethodReduce := some true }) a.ref.id = true := by
              rw [inProg_changeStatus]; exact hm2
            refine ⟨?_, ?_, ?_⟩
            · intro o _
              exact TailOk_extend _ _ _ _ (pwf_tailOk _ a hI3 hm3) hpre2
                (by simp [mkSnap]) (by simp [mkSnap]) (by simp [mkSnap])
            · intro p hp
              simp at hp
            · intro p hp
              simp at hp
          · rw [if_neg hab]
            simp only [wraps]
            have hne2 : st ≠ (changeStatus (changeStatus s a.ref.id
                { hasFinishedMethodBefore := some true }) a.ref.id
                { hasFinishedMethodReduce := some true }).state := by
              rw [changeStatus_state]
              exact hsame
            obtain ⟨g1, g2, g3, g4, g5, g6, g7⟩ :=
              registerState_full _ a st hne2 hm2 hI2
            obtain ⟨p1, p2, p3, p4, p5, p6⟩ := processWrapsFinally_full _ a g2
            obtain ⟨q1, q2⟩ := p6 g7
            refine ⟨?_, ?_, ?_⟩
            · intro o _
              rw [List.append_assoc]
              refine TailOk_extend _ _ _ _ ?_ hpre2
                (by simp [mkSnap]) (by simp [mkSnap]) (by simp [mkSnap])
              refine ⟨?_, p2, ?_, ?_, Or.inl ⟨?_, ?_⟩⟩
              · intro ev hev
                rcases List.mem_append.mp hev with hev | hev
                · exact g1 ev hev
                · exact p1 ev hev
              · simp [List.count_append, g3, p3]
              · simp [List.count_append, g4, q1]
              · simp [List.count_append, g5, p4]
              · simpa using List.Sublist.append g6 q2
            · intro p hp
              simp at hp
            · intro p hp
              simp at hp
      · simp only [hred, wraps]
        refine ⟨?_, ?_, ?_⟩
        · intro o ho
          simp at ho
        · intro p hp
          simp at hp
        · intro p _
          refine ⟨⟨?_, hI1, by simp [mkSnap], by simp [mkSnap],
            by simp [mkSnap]⟩, hm1⟩
          intro ev hev
          rw [List.append_nil] at hev
          exact hpre1 ev hev
      · simp only [hred, wraps]
        refine ⟨?_, ?_, ?_⟩
        · intro o _
          exact TailOk_extend _ _ _ _
            (errThenFinally_tailOk cfg _ a e hI1 hm1) hpre1
            (by simp [mkSnap]) (by simp [mkSnap]) (by simp [mkSnap])
        · intro p hp
          simp at hp
        · intro p hp
          simp at hp
  · -- before() threw synchronously
    simp only [runFromStart, hbef, wraps]
    refine ⟨?_, ?_, ?_⟩
    · intro o _
      exact TailOk_extend _ _ _ _
        (errThenFinally_tailOk cfg s a e hInv hmem) hpre0
        (by simp [mkSnap]) (by simp [mkSnap]) (by simp [mkSnap])
    · intro p hp
      simp at hp
    · intro p hp
      simp at hp
  · -- before() returned a promise
    simp only [runFromStart, hbef, Bool.false_eq_true, if_false, wraps]
    refine ⟨?_, ?_, ?_⟩
    · intro o ho
      simp at ho
    · intro p _
      refine ⟨⟨?_, hInv, by simp [mkSnap], by simp [mkSnap],
        by simp [mkSnap]⟩, hmem⟩
      intro ev hev
      rw [List.append_nil] at hev
      exact hpre0 ev hev
    · intro p hp
      simp at hp


/-- Claim C1 for `_processDispatch` of a fresh action (not yet
dispatched): every snapshot satisfies the invariant, so does the final
store, the action is added to the in-progress set exactly once and
before `before()` runs; when the call finished its lifecycle
synchronously (normal return without pending work, or synchronous
throw) the removal discipline holds, and when asynchronous work is
pending no removal has been logged yet and the action is still in the
set. -/
theorem processDispatch_full (cfg : StoreConfig St) (fuel : Nat)
    (s : StoreSt St) (a : ActionM St) (hInv : InvS s)
    (hd : (s.statuses a.ref.id).isDispatched = false)
    (hfa : (s.statuses a.ref.id).hasFinishedMethodAfter = false) :
    (∀ ev ∈ (processDispatch cfg fuel s a false).2.1, SnapOk ev) ∧
    InvS (processDispatch cfg fuel s a false).1 ∧
    (processDispatch cfg fuel s a false).2.1.count (Ev.addInProgress a.ref.id) = 1 ∧
    [Ev.addInProgress a.ref.id, Ev.beforeRun a.ref.id].Sublist (processDispatch cfg fuel s a false).2.1 ∧
    (processDispatch cfg fuel s a false).2.2 ≠ .ignored ∧
    (∀ p, (processDispatch cfg fuel s a false).2.2 = .returnedOk (some p) →
      inProg (processDispatch cfg fuel s a false).1 a.ref.id = true ∧
      (processDispatch cfg fuel s a false).2.1.count (Ev.removeInProgress a.ref.id) = 0 ∧
      (processDispatch cfg fuel s a false).2.1.count (Ev.stateApplied a.ref.id) = 0) ∧
    ((processDispatch cfg fuel s a false).2.2 = .returnedOk none ∨ (∃ e, (processDispatch cfg fuel s a false).2.2 = .threwSync e) →
      (processDispatch cfg fuel s a false).2.1.count (Ev.removeInProgress a.ref.id) = 1 ∧
      (((processDispatch cfg fuel s a false).2.1.count (Ev.stateApplied a.ref.id) = 1 ∧
        [Ev.stateApplied a.ref.id, Ev.removeInProgress a.ref.id,
          Ev.afterRun a.ref.id].Sublist (processDispatch cfg fuel s a false).2.1) ∨
       ((processDispatch cfg fuel s a false).2.1.count (Ev.stateApplied a.ref.id) = 0 ∧
        [Ev.afterRun a.ref.id, Ev.removeInProgress a.ref.id].Sublist
          (processDispatch cfg fuel s a false).2.1))) := by
  have hI1 : InvS ({ s with dispatchCount := s.dispatchCount + 1 } : StoreSt St) :=
    InvS_mk _ s rfl rfl hInv
  have hI2 : InvS (changeStatus { s with dispatchCount := s.dispatchCount + 1 } a.ref.id
      { isDispatched := some true }) :=
    InvS_changeStatus _ _ _ (Or.inr rfl) rfl hI1
  have hI3 : InvS (injectStore (changeStatus { s with dispatchCount := s.dispatchCount + 1 } a.ref.id
      { isDispatched := some true }) a) :=
    InvS_mk _ _ (injectStore_actionsInProgress _ _)
      (injectStore_statuses _ _) hI2
  have hstat3 : ((injectStore (changeStatus { s with dispatchCount := s.dispatchCount + 1 } a.ref.id
      { isDispatched := some true }) a).statuses a.ref.id).isDispatched = true ∧
      ((injectStore (changeStatus { s with dispatchCount := s.dispatchCount + 1 } a.ref.id
      { isDispatched := some true }) a).statuses a.ref.id).hasFinishedMethodAfter = false := by
    rw [injectStore_statuses, changeStatus_statuses_self]
    constructor <;> simp [ActionStatus.copy, hfa]
  have hIc : InvS ((calculateIsWaitingIsFailed (injectStore (changeStatus { s with dispatchCount := s.dispatchCount + 1 } a.ref.id
      { isDispatched := some true }) a) a).1) :=
    InvS_mk _ _ (by simp [calculateIsWaitingIsFailed_actionsInProgress])
      (by simp [calculateIsWaitingIsFailed_statuses])
      (InvS_add (injectStore (changeStatus { s with dispatchCount := s.dispatchCount + 1 } a.ref.id
      { isDispatched := some true }) a) a.ref hstat3 hI3)
  have hmc : inProg ((calculateIsWaitingIsFailed (injectStore (changeStatus { s with dispatchCount := s.dispatchCount + 1 } a.ref.id
      { isDispatched := some true }) a) a).1) a.ref.id = true := by
    simp only [inProg, calculateIsWaitingIsFailed_actionsInProgress]
    exact inProg_refAdd _ _
  have hc2 : ((calculateIsWaitingIsFailed (injectStore (changeStatus { s with dispatchCount := s.dispatchCount + 1 } a.ref.id
      { isDispatched := some true }) a) a).2) = [Ev.addInProgress a.ref.id] :=
    calculateIsWaitingIsFailed_trace _ _
  obtain ⟨WA, WB, WC⟩ := wraps_runFromStart_full cfg fuel ((calculateIsWaitingIsFailed (injectStore (changeStatus { s with dispatchCount := s.dispatchCount + 1 } a.ref.id
      { isDispatched := some true }) a) a).1) a hIc hmc
  have hbr : [Ev.beforeRun a.ref.id].Sublist
      ((runFromStart fuel ((calculateIsWaitingIsFailed (injectStore (changeStatus { s with dispatchCount := s.dispatchCount + 1 } a.ref.id
      { isDispatched := some true }) a) a).1) a false).2.1 ++ (wraps cfg (runFromStart fuel ((calculateIsWaitingIsFailed (injectStore (changeStatus { s with dispatchCount := s.dispatchCount + 1 } a.ref.id
      { isDispatched := some true }) a) a).1) a false).1 a (runFromStart fuel ((calculateIsWaitingIsFailed (injectStore (changeStatus { s with dispatchCount := s.dispatchCount + 1 } a.ref.id
      { isDispatched := some true }) a) a).1) a false).2.2).2.1) :=
    (runFromStart_beforeRun fuel _ a false).trans
      (List.sublist_append_left _ _)
  have hsnapA : ∀ ev ∈ ([mkSnap (injectStore (changeStatus { s with dispatchCount := s.dispatchCount + 1 } a.ref.id
      { isDispatched := some true }) a)] ++ ((calculateIsWaitingIsFailed (injectStore (changeStatus { s with dispatchCount := s.dispatchCount + 1 } a.ref.id
      { isDispatched := some true }) a) a).2)), SnapOk ev := by
    intro ev hev
    rw [hc2] at hev
    simp only [List.mem_append, List.mem_singleton] at hev
    rcases hev with h | h <;> (try subst h) <;>
      first
        | exact SnapOk_mkSnap _ hI3
        | trivial
  have hsubAdd : [Ev.addInProgress a.ref.id].Sublist
      ([mkSnap (injectStore (changeStatus { s with dispatchCount := s.dispatchCount + 1 } a.ref.id
      { isDispatched := some true }) a)] ++ ((calculateIsWaitingIsFailed (injectStore (changeStatus { s with dispatchCount := s.dispatchCount + 1 } a.ref.id
      { isDispatched := some true }) a) a).2)) := by
    rw [hc2]
    exact List.Sublist.cons _ (List.Sublist.refl _)
  simp only [processDispatch, hd, Bool.false_eq_true, if_false]
  rcases hw : (wraps cfg (runFromStart fuel ((calculateIsWaitingIsFailed (injectStore (changeStatus { s with dispatchCount := s.dispatchCount + 1 } a.ref.id
      { isDispatched := some true }) a) a).1) a false).1 a (runFromStart fuel ((calculateIsWaitingIsFailed (injectStore (changeStatus { s with dispatchCount := s.dispatchCount + 1 } a.ref.id
      { isDispatched := some true }) a) a).1) a false).2.2).2.2 with o | p0 | p0
  · -- the synchronous part finished via `done`
    obtain ⟨t1, t2, t3, t4, t5⟩ := WA o hw
    rw [List.count_append] at t3 t4
    refine ⟨?_, t2, ?_, ?_, ?_, ?_, ?_⟩
    · intro ev hev
      rw [List.append_assoc] at hev
      rcases List.mem_append.mp hev with h | h
      · exact hsnapA ev h
      · exact t1 ev h
    · rw [List.append_assoc, List.count_append, List.count_append]
      rw [hc2]
      simp only [List.count_singleton, List.count_cons, mkSnap]
      simp only [List.count_nil]
      simp [mkSnap]
      omega
    · rw [List.append_assoc]
      simpa using List.Sublist.append hsubAdd hbr
    · rcases o with _ | e <;> simp
    · intro p hp
      rcases o with _ | e <;> simp at hp
    · intro _
      constructor
      · rw [List.append_assoc, List.count_append, List.count_append]
        rw [hc2]
        simp [mkSnap]
        omega
      · rcases t5 with ⟨hs1, hsub1⟩ | ⟨hs0, hsub0⟩
        · rw [List.count_append] at hs1
          refine Or.inl ⟨?_, ?_⟩
          · rw [List.append_assoc, List.count_append, List.count_append]
            rw [hc2]
            simp [mkSnap]
            omega
          · rw [List.append_assoc]
            exact hsub1.trans (List.sublist_append_right _ _)
        · rw [List.count_append] at hs0
          refine Or.inr ⟨?_, ?_⟩
          · rw [List.append_assoc, List.count_append, List.count_append]
            rw [hc2]
            simp [mkSnap]
            omega
          · rw [List.append_assoc]
            exact hsub0.trans (List.sublist_append_right _ _)
  · -- pending before() work
    obtain ⟨⟨u1, u2, u3, u4, u5⟩, umem⟩ := WB p0 hw
    rw [List.count_append] at u3 u4 u5
    refine ⟨?_, u2, ?_, ?_, by simp, ?_, ?_⟩
    · intro ev hev
      rw [List.append_assoc] at hev
      rcases List.mem_append.mp hev with h | h
      · exact hsnapA ev h
      · exact u1 ev h
    · rw [List.append_assoc, List.count_append, List.count_append]
      rw [hc2]
      simp [mkSnap]
      omega
    · rw [List.append_assoc]
      simpa using List.Sublist.append hsubAdd hbr
    · intro p hp
      simp only [DispatchCallRes.returnedOk.injEq, Option.some.injEq] at hp
      subst hp
      refine ⟨umem, ?_, ?_⟩ <;>
        · rw [List.append_assoc, List.count_append, List.count_append]
          rw [hc2]
          simp [mkSnap]
          omega
    · intro h
      rcases h with h | ⟨e, h⟩ <;> simp at h
  · -- pending reduce() work
    obtain ⟨⟨u1, u2, u3, u4, u5⟩, umem⟩ := WC p0 hw
    rw [List.count_append] at u3 u4 u5
    refine ⟨?_, u2, ?_, ?_, by simp, ?_, ?_⟩
    · intro ev hev
      rw [List.append_assoc] at hev
      rcases List.mem_append.mp hev with h | h
      · exact hsnapA ev h
      · exact u1 ev h
    · rw [List.append_assoc, List.count_append, List.count_append]
      rw [hc2]
      simp [mkSnap]
      omega
    · rw [List.append_assoc]
      simpa using List.Sublist.append hsubAdd hbr
    · intro p hp
      simp only [DispatchCallRes.returnedOk.injEq, Option.some.injEq] at hp
      subst hp
      refine ⟨umem, ?_, ?_⟩ <;>
        · rw [List.append_assoc, List.count_append, List.count_append]
          rw [hc2]
          simp [mkSnap]
          omega
    · intro h
      rcases h with h | ⟨e, h⟩ <;> simp at h


/-- Claim C1: along a full dispatch (entry point `dispatch`, not
mocked away, not aborted, not reentrancy-dropped, action not already
dispatched), every logged snapshot of the in-progress set satisfies the
invariant — each member has `isDispatched = true` and
`hasFinishedMethodAfter = false` — and so does the final store; the
action is added to the set exactly once, before `before()` runs; and
unless the action's lifecycle hangs forever on a promise that never
settles, it is removed exactly once — right after its reducer's new
state is applied to the store (and then before `after()` runs), or
otherwise after `after()` ran. -/
theorem inProgress_set_invariant (cfg : StoreConfig St) (fuel : Nat)
    (s : StoreSt St) (a : ActionM St)
    (hmock : mockActionOrNot cfg a = some a)
    (habort : a.abortDispatch = .ok false)
    (hnr : a.nonReentrant = false)
    (hInv : InvS s)
    (hd : (s.statuses a.ref.id).isDispatched = false)
    (hfa : (s.statuses a.ref.id).hasFinishedMethodAfter = false) :
    (∀ ev ∈ (dispatchAndComplete cfg fuel s a).trace, SnapOk ev) ∧
    InvS (dispatchAndComplete cfg fuel s a).store ∧
    (dispatchAndComplete cfg fuel s a).trace.count (Ev.addInProgress a.ref.id) = 1 ∧
    [Ev.addInProgress a.ref.id, Ev.beforeRun a.ref.id].Sublist (dispatchAndComplete cfg fuel s a).trace ∧
    ((dispatchAndComplete cfg fuel s a).cont ≠ some .stuck →
      (dispatchAndComplete cfg fuel s a).trace.count (Ev.removeInProgress a.ref.id) = 1 ∧
      (((dispatchAndComplete cfg fuel s a).trace.count (Ev.stateApplied a.ref.id) = 1 ∧
        [Ev.stateApplied a.ref.id, Ev.removeInProgress a.ref.id,
          Ev.afterRun a.ref.id].Sublist (dispatchAndComplete cfg fuel s a).trace) ∨
       ((dispatchAndComplete cfg fuel s a).trace.count (Ev.stateApplied a.ref.id) = 0 ∧
        [Ev.afterRun a.ref.id, Ev.removeInProgress a.ref.id].Sublist
          (dispatchAndComplete cfg fuel s a).trace))) := by
  obtain ⟨P1, P2, P3, P4, P5, P6, P7⟩ :=
    processDispatch_full cfg fuel s a hInv hd hfa
  simp only [dispatchAndComplete, dispatch, hmock, habort, hnr,
    Bool.false_eq_true, if_false]
  rcases hcall : (processDispatch cfg fuel s a false).2.2 with _ | e | op
  · exact absurd hcall P5
  · obtain ⟨m1, m2⟩ := P7 (Or.inr ⟨e, hcall⟩)
    exact ⟨P1, P2, P3, P4, fun _ => ⟨m1, m2⟩⟩
  · rcases op with _ | p
    · obtain ⟨m1, m2⟩ := P7 (Or.inl hcall)
      exact ⟨P1, P2, P3, P4, fun _ => ⟨m1, m2⟩⟩
    · obtain ⟨hmemd, hrm0, hsa0⟩ := P6 p hcall
      rcases p with rb | rr
      · simp only [completePending]
        obtain ⟨KS, KT⟩ := runAsyncBeforeOnwards_full cfg fuel
          (processDispatch cfg fuel s a false).1 a rb P2 hmemd
        by_cases hstuck : (runAsyncBeforeOnwards cfg fuel
            (processDispatch cfg fuel s a false).1 a rb).2.2 = .stuck
        · obtain ⟨k1, k2, k3, k4, k5⟩ := KS hstuck
          refine ⟨?_, k2, ?_, ?_, ?_⟩
          · intro ev hev
            rcases List.mem_append.mp hev with h | h
            · exact P1 ev h
            · exact k1 ev h
          · simp [List.count_append, P3, k3]
          · exact P4.trans (List.sublist_append_left _ _)
          · intro hne
            exact absurd (by rw [hstuck]) hne
        · obtain ⟨k1, k2, k3, k4, k5⟩ := KT hstuck
          refine ⟨?_, k2, ?_, ?_, ?_⟩
          · intro ev hev
            rcases List.mem_append.mp hev with h | h
            · exact P1 ev h
            · exact k1 ev h
          · simp [List.count_append, P3, k3]
          · exact P4.trans (List.sublist_append_left _ _)
          · intro _
            refine ⟨by simp [List.count_append, hrm0, k4], ?_⟩
            rcases k5 with ⟨ha1, hb1⟩ | ⟨ha1, hb1⟩
            · exact Or.inl ⟨by simp [List.count_append, hsa0, ha1],
                hb1.trans (List.sublist_append_right _ _)⟩
            · exact Or.inr ⟨by simp [List.count_append, hsa0, ha1],
                hb1.trans (List.sublist_append_right _ _)⟩
      · simp only [completePending]
        obtain ⟨KS, KT⟩ := runAsyncReduceOnwards_full cfg
          (processDispatch cfg fuel s a false).1 a rr P2 hmemd
        by_cases hstuck : (runAsyncReduceOnwards cfg
            (processDispatch cfg fuel s a false).1 a rr).2.2 = .stuck
        · obtain ⟨k1, k2, k3, k4, k5⟩ := KS hstuck
          refine ⟨?_, k2, ?_, ?_, ?_⟩
          · intro ev hev
            rcases List.mem_append.mp hev with h | h
            · exact P1 ev h
            · exact k1 ev h
          · simp [List.count_append, P3, k3]
          · exact P4.trans (List.sublist_append_left _ _)
          · intro hne
            exact absurd (by rw [hstuck]) hne
        · obtain ⟨k1, k2, k3, k4, k5⟩ := KT hstuck
          refine ⟨?_, k2, ?_, ?_, ?_⟩
          · intro ev hev
            rcases List.mem_append.mp hev with h | h
            · exact P1 ev h
            · exact k1 ev h
          · simp [List.count_append, P3, k3]
          · exact P4.trans (List.sublist_append_left _ _)
          · intro _
            refine ⟨by simp [List.count_append, hrm0, k4], ?_⟩
            rcases k5 with ⟨ha1, hb1⟩ | ⟨ha1, hb1⟩
            · exact Or.inl ⟨by simp [List.count_append, hsa0, ha1],
                hb1.trans (List.sublist_append_right _ _)⟩
            · exact Or.inr ⟨by simp [List.count_append, hsa0, ha1],
                hb1.trans (List.sublist_append_right _ _)⟩


/-- A plain synchronous action for the C1 witness: fresh id 7, exact
type 70, a `before()` that returns normally and a `reduce()` that
returns the new state `1`. -/
def actC1 : ActionM Nat :=
  { ref := { id := 7, typeId := 70, superTypes := [] }
    before := .ok
    reduce := fun _ => .retState 1 }

/-- Witness for claim C1 at a concrete input: dispatching `actC1` on a
fresh store satisfies the whole in-progress-set contract. -/
theorem inProgress_set_invariant_witness :
    (∀ ev ∈ (dispatchAndComplete cfg0 10 store0 actC1).trace, SnapOk ev) ∧
    InvS (dispatchAndComplete cfg0 10 store0 actC1).store ∧
    (dispatchAndComplete cfg0 10 store0 actC1).trace.count (Ev.addInProgress actC1.ref.id) = 1 ∧
    [Ev.addInProgress actC1.ref.id, Ev.beforeRun actC1.ref.id].Sublist
      (dispatchAndComplete cfg0 10 store0 actC1).trace ∧
    ((dispatchAndComplete cfg0 10 store0 actC1).cont ≠ some .stuck →
      (dispatchAndComplete cfg0 10 store0 actC1).trace.count (Ev.removeInProgress actC1.ref.id) = 1 ∧
      (((dispatchAndComplete cfg0 10 store0 actC1).trace.count (Ev.stateApplied actC1.ref.id) = 1 ∧
        [Ev.stateApplied actC1.ref.id, Ev.removeInProgress actC1.ref.id,
          Ev.afterRun actC1.ref.id].Sublist (dispatchAndComplete cfg0 10 store0 actC1).trace) ∨
       ((dispatchAndComplete cfg0 10 store0 actC1).trace.count (Ev.stateApplied actC1.ref.id) = 0 ∧
        [Ev.afterRun actC1.ref.id, Ev.removeInProgress actC1.ref.id].Sublist
          (dispatchAndComplete cfg0 10 store0 actC1).trace))) :=
  inProgress_set_invariant cfg0 10 store0 actC1 rfl rfl rfl
    (by intro r hr; simp [store0] at hr) rfl rfl


end AsyncRedux
